import Mathlib

/-!
Enkidu: a shallow embedding of `enkidu.c`.

The C program keeps one global `state` (pixel buffer, player angle, position,
position delta) and mutates it from `init_game`, `applyInput` and `render`.
Here every function of the source that touches that state is a pure function
on a `State` record.

Numbers.
* `float`/`double` values are elements of an arbitrary linearly ordered field
  `α` with a floor function (`ℚ` for evaluation, `ℝ` for the real `cos`/`sin`).
  NaN and infinities are not modelled.
* The player functions that compute with floats come in two forms.  The plain
  form (`init_game`, `rotatePlayer`, `applyInput`) is the program in exact
  arithmetic: no operation rounds.  The form in the namespace `Rounded` takes
  the two conversions of the C program, to `float` and to `double`, as
  arguments and applies them where the C program rounds; with `binary32` and
  `binary64` (IEEE 754, round to nearest, ties to even) it is the program as
  it runs, with the identity it is the plain form.  `setPlayerPos` and `clamp`
  only compare and copy, so they round nowhere.  `drawPlayer2D` computes the
  marker position without rounding.
* `cos` and `sin` come from libm; they are parameters of the functions that
  call them.
* `int` values are `Int`; every product formed by the program stays far below
  `2^31`, so no wrap-around is modelled.  An `int` passed to `clamp` is
  converted to `double` and back, which is exact for 32-bit integers, so the
  integer call sites use `clamp` at type `Int`.
* `uint32_t` colours are `Nat` (only constants are ever stored).
* `state.pixels` is a total function on indices, so a write at an index past
  the end of the C array (undefined behaviour in C) stays visible.
-/

namespace Enkidu

/-! ## Constants (`#define`s) -/

/-- The C type `typedef struct vector2f { float x, y; } vec2f;`. -/
structure vec2f (α : Type) where
  x : α
  y : α

/-- The constant `#define PI 3.1415926535`. -/
def PI {α : Type} [LinearOrderedField α] : α := 31415926535 / 10000000000

/-- The constant `#define SCREEN_WIDTH 256`. -/
def SCREEN_WIDTH : Int := 256

/-- The constant `#define SCREEN_HEIGHT 256`. -/
def SCREEN_HEIGHT : Int := 256

/-- The constant `#define SCREEN_PADDING 10`. -/
def SCREEN_PADDING : Int := 10

/-- The constant `#define MOVE_SPEED 2`. -/
def MOVE_SPEED : Int := 2

/-- The constant `#define ROTATION_ANGLE_PER_TICK 0.1`. -/
def ROTATION_ANGLE_PER_TICK {α : Type} [LinearOrderedField α] : α := 1 / 10

/-- The constant `#define MAP_SIZE 8`. -/
def MAP_SIZE : Int := 8

/-- The global `int map[MAP_SIZE * MAP_SIZE]`, row-major. -/
def map : List Int :=
  [1, 1, 1, 1, 1, 1, 1, 1,
   1, 0, 1, 0, 0, 0, 0, 1,
   1, 0, 1, 0, 0, 0, 0, 1,
   1, 0, 1, 0, 0, 0, 0, 1,
   1, 0, 1, 0, 0, 0, 0, 1,
   1, 0, 0, 0, 0, 1, 0, 1,
   1, 0, 0, 0, 0, 0, 0, 1,
   1, 1, 1, 1, 1, 1, 1, 1]

/-- The array read `map[i]`. -/
def mapAt (i : Int) : Int := map.getD i.toNat 0

/-- The macro `#define CELL_SIZE_X SCREEN_WIDTH / MAP_SIZE`, as the value the macro has
where it stands alone (`px < CELL_SIZE_X`, `CELL_SIZE_X - dw`). -/
def CELL_SIZE_X : Int := Int.tdiv SCREEN_WIDTH MAP_SIZE

/-- The macro `#define CELL_SIZE_Y SCREEN_HEIGHT / MAP_SIZE`, standing alone. -/
def CELL_SIZE_Y : Int := Int.tdiv SCREEN_HEIGHT MAP_SIZE

/-! ## `clamp` -/

/-- The source reads
`const double t = d < min ? min : d; return t > max ? max : t;`. -/
def clamp {α : Type} [LinearOrder α] (d min max : α) : α :=
  let t := if d < min then min else d
  if t > max then max else t

/-! ## The global `state` -/

/-- The simulation fields of the global `state` struct (the SDL handles and
the `quit` flag play no part in the functions embedded here). -/
structure State (α : Type) where
  pixels : Int → Nat
  angle : α
  position : vec2f α
  positionDelta : vec2f α

/-- The assignment `state.pixels[i] = v`. -/
def setPixel {α : Type} (s : State α) (i : Int) (v : Nat) : State α :=
  { s with pixels := fun j => if j = i then v else s.pixels j }

/-- Source function `static void setPlayerPos(float new_x, float new_y)`. -/
def setPlayerPos {α : Type} [LinearOrderedField α] (new_x new_y : α) (s : State α) : State α :=
  { s with position :=
      ⟨clamp new_x (SCREEN_PADDING : α) ((SCREEN_WIDTH - SCREEN_PADDING : Int) : α),
       clamp new_y (SCREEN_PADDING : α) ((SCREEN_HEIGHT - SCREEN_PADDING : Int) : α)⟩ }

/-- Source function `static void init_game()`; `SCREEN_WIDTH/2` is an integer
division. -/
def init_game {α : Type} [LinearOrderedField α] (cos sin : α → α) (s : State α) : State α :=
  let s1 := setPlayerPos ((Int.tdiv SCREEN_WIDTH 2 : Int) : α) ((Int.tdiv SCREEN_HEIGHT 2 : Int) : α) s
  let s2 := { s1 with angle := PI }
  let s3 := { s2 with positionDelta := ⟨cos s2.angle, s2.positionDelta.y⟩ }
  { s3 with positionDelta := ⟨s3.positionDelta.x, sin s3.angle⟩ }

/-- Source function `static int convertPixelCoordToLinear(int x, int y)`. -/
def convertPixelCoordToLinear (x y : Int) : Int :=
  let newX := clamp x 0 SCREEN_WIDTH
  let newY := clamp y 0 SCREEN_HEIGHT
  newY * SCREEN_WIDTH + newX

/-- The C conversion of a floating value to `int` (truncation toward zero),
as at the call `convertPixelCoordToLinear(state.position.x, state.position.y)`. -/
def truncToInt {α : Type} [LinearOrderedField α] [FloorRing α] (v : α) : Int :=
  if 0 ≤ v then ⌊v⌋ else ⌈v⌉

/-- Source function `static void drawCell2D(int x, int y, uint32_t color)`.
The macro `CELL_SIZE_X` is textual, so `x * CELL_SIZE_X + px` is
`x * SCREEN_WIDTH / MAP_SIZE + px`, that is `(x * SCREEN_WIDTH) / MAP_SIZE + px`. -/
def drawCell2D {α : Type} (x y : Int) (color : Nat) (s : State α) : State α :=
  let dw : Int := 1
  (List.range CELL_SIZE_X.toNat).foldl (fun (s : State α) (px : Nat) =>
    (List.range CELL_SIZE_Y.toNat).foldl (fun (s : State α) (py : Nat) =>
      let isDividerX : Bool := decide ((px : Int) < dw) || decide ((px : Int) > CELL_SIZE_X - dw)
      let isDividerY : Bool := decide ((py : Int) < dw) || decide ((py : Int) > CELL_SIZE_X - dw)
      let newColor : Nat := if isDividerX || isDividerY then 0x000000 else color
      let NewID := convertPixelCoordToLinear
        (Int.tdiv (x * SCREEN_WIDTH) MAP_SIZE + px) (Int.tdiv (y * SCREEN_HEIGHT) MAP_SIZE + py)
      setPixel s NewID newColor) s) s

/-- Source function `static void drawMap2D()`. -/
def drawMap2D {α : Type} (s : State α) : State α :=
  (List.range MAP_SIZE.toNat).foldl (fun (s : State α) (x : Nat) =>
    (List.range MAP_SIZE.toNat).foldl (fun (s : State α) (y : Nat) =>
      let CellColor : Nat := if mapAt ((y : Int) * MAP_SIZE + (x : Int)) = 1 then 0x808080 else 0x151515
      drawCell2D (x : Int) (y : Int) CellColor s) s) s

/-- Source function `static void drawPlayer2D()`. -/
def drawPlayer2D {α : Type} [LinearOrderedField α] [FloorRing α] (s : State α) : State α :=
  let s1 :=
    if (s.position.x ≥ 0 ∧ s.position.x ≤ (SCREEN_WIDTH : α)) ∧
        (s.position.y ≥ 0 ∧ s.position.y ≤ (SCREEN_HEIGHT : α)) then
      let pixelID := convertPixelCoordToLinear (truncToInt s.position.x) (truncToInt s.position.y)
      setPixel s pixelID 0xFFFFFFFF
    else s
  let arrowLength : α := 5
  let arrowPosX := s1.position.x + s1.positionDelta.x * arrowLength
  let arrowPosY := s1.position.y + s1.positionDelta.y * arrowLength
  if (arrowPosX ≥ 0 ∧ arrowPosX ≤ (SCREEN_WIDTH : α)) ∧
      (arrowPosY ≥ 0 ∧ arrowPosY ≤ (SCREEN_HEIGHT : α)) then
    let pixelID := convertPixelCoordToLinear (truncToInt arrowPosX) (truncToInt arrowPosY)
    setPixel s1 pixelID 0x606060
  else s1

/-- Source function `static void rotatePlayer(float angleDelta)`. -/
def rotatePlayer {α : Type} [LinearOrderedField α] (cos sin : α → α) (angleDelta : α)
    (s : State α) : State α :=
  let newAngle := s.angle + angleDelta
  let newAngle := if angleDelta > 0 ∧ newAngle > 2 * PI then newAngle - 2 * PI else newAngle
  let newAngle := if angleDelta < 0 ∧ newAngle < 0 then newAngle + 2 * PI else newAngle
  let s1 := { s with angle := newAngle }
  let s2 := { s1 with positionDelta := ⟨cos s1.angle * (MOVE_SPEED : α), s1.positionDelta.y⟩ }
  { s2 with positionDelta := ⟨s2.positionDelta.x, sin s2.angle * (MOVE_SPEED : α)⟩ }

/-- Source function `static void render()`. -/
def render {α : Type} [LinearOrderedField α] [FloorRing α] (s : State α) : State α :=
  drawPlayer2D (drawMap2D s)

/-- The four entries of `SDL_GetKeyboardState` that `applyInput` reads. -/
structure Keys where
  up : Bool
  down : Bool
  left : Bool
  right : Bool

/-- Source function `static void applyInput()`.  The compile-time switch
`ENABLE_TANK_CONTROLS` (`true` in the source) is the argument `tank`. -/
def applyInput {α : Type} [LinearOrderedField α] (cos sin : α → α) (tank : Bool)
    (keystate : Keys) (s : State α) : State α :=
  let newPosX := s.position.x
  let newPosY := s.position.y
  if tank then
    let s := if keystate.left then rotatePlayer cos sin (-ROTATION_ANGLE_PER_TICK) s else s
    let s := if keystate.right then rotatePlayer cos sin ROTATION_ANGLE_PER_TICK s else s
    let newPosX := if keystate.up then newPosX + s.positionDelta.x else newPosX
    let newPosY := if keystate.up then newPosY + s.positionDelta.y else newPosY
    let newPosX := if keystate.down then newPosX - s.positionDelta.x else newPosX
    let newPosY := if keystate.down then newPosY - s.positionDelta.y else newPosY
    setPlayerPos newPosX newPosY s
  else
    let newPosY := if keystate.up then newPosY - (MOVE_SPEED : α) else newPosY
    let newPosY := if keystate.down then newPosY + (MOVE_SPEED : α) else newPosY
    let newPosX := if keystate.left then newPosX - (MOVE_SPEED : α) else newPosX
    let newPosX := if keystate.right then newPosX + (MOVE_SPEED : α) else newPosX
    setPlayerPos newPosX newPosY s

/-- The state after `init_game` and then one `applyInput` per entry of `frames`. -/
def runFrames {α : Type} [LinearOrderedField α] (cos sin : α → α) (tank : Bool)
    (frames : List Keys) (s : State α) : State α :=
  frames.foldl (fun st k => applyInput cos sin tank k st) (init_game cos sin s)

/-! ## Rounding to `float` and `double` -/

/-- Rounding of a number to the nearest integer, ties to the even one. -/
def roundHalfEven {α : Type} [LinearOrderedField α] [FloorRing α] (y : α) : Int :=
  let n := ⌊y⌋
  if y - n < 1 / 2 then n else if 1 / 2 < y - n then n + 1 else if n % 2 = 0 then n else n + 1

/-- IEEE 754 rounding to the binary format with `prec` significand bits and
least normal exponent `emin`: to nearest, ties to even.  The exponent of `x`
is `Int.log 2 |x|`, kept at `emin` or above (subnormal numbers), and `x` is
rounded to a multiple of `2 ^ (exponent - (prec - 1))`.  Overflow to infinity
is left out: every value of the program is far below `2 ^ 127`. -/
def roundBinary {α : Type} [LinearOrderedField α] [FloorRing α] (prec : Nat) (emin : Int)
    (x : α) : α :=
  if x = 0 then 0
  else
    let e := max (Int.log 2 |x|) emin
    let q : α := 2 ^ (e - ((prec : Int) - 1))
    (roundHalfEven (x / q) : α) * q

/-- Conversion to the C type `float` (IEEE 754 binary32). -/
def binary32 {α : Type} [LinearOrderedField α] [FloorRing α] (x : α) : α :=
  roundBinary 24 (-126) x

/-- Conversion to the C type `double` (IEEE 754 binary64). -/
def binary64 {α : Type} [LinearOrderedField α] [FloorRing α] (x : α) : α :=
  roundBinary 53 (-1022) x

/-! ## The player functions with the roundings of the C program -/

namespace Rounded

/-- Source function `static void init_game()` with its conversions:
`state.angle = PI` narrows the `double` literal to `float`, and the `double`
results of `cos` and `sin` are narrowed when stored.  `setPlayerPos` stores
`128`, a `float`, as it is. -/
def init_game {α : Type} [LinearOrderedField α] (toFloat toDouble : α → α) (cos sin : α → α)
    (s : State α) : State α :=
  let s1 := setPlayerPos ((Int.tdiv SCREEN_WIDTH 2 : Int) : α) ((Int.tdiv SCREEN_HEIGHT 2 : Int) : α) s
  let s2 := { s1 with angle := toFloat (toDouble PI) }
  let s3 := { s2 with positionDelta := ⟨toFloat (cos s2.angle), s2.positionDelta.y⟩ }
  { s3 with positionDelta := ⟨s3.positionDelta.x, toFloat (sin s3.angle)⟩ }

/-- Source function `static void rotatePlayer(float angleDelta)` with its
conversions: `state.angle + angleDelta` is a `float` sum; `2 * PI` is a
`double` product of the `double` literal; `newAngle -= 2 * PI` subtracts in
`double` and narrows to `float`; `cos(state.angle) * MOVE_SPEED` multiplies in
`double` and is narrowed when stored. -/
def rotatePlayer {α : Type} [LinearOrderedField α] (toFloat toDouble : α → α) (cos sin : α → α)
    (angleDelta : α) (s : State α) : State α :=
  let newAngle := toFloat (s.angle + angleDelta)
  let newAngle := if angleDelta > 0 ∧ newAngle > toDouble (2 * toDouble PI)
    then toFloat (toDouble (newAngle - toDouble (2 * toDouble PI))) else newAngle
  let newAngle := if angleDelta < 0 ∧ newAngle < 0
    then toFloat (toDouble (newAngle + toDouble (2 * toDouble PI))) else newAngle
  let s1 := { s with angle := newAngle }
  let s2 := { s1 with positionDelta :=
    ⟨toFloat (toDouble (cos s1.angle * (MOVE_SPEED : α))), s1.positionDelta.y⟩ }
  { s2 with positionDelta :=
    ⟨s2.positionDelta.x, toFloat (toDouble (sin s2.angle * (MOVE_SPEED : α)))⟩ }

/-- Source function `static void applyInput()` with its conversions: the
argument of `rotatePlayer` is the `double` literal `0.1`, negated or not,
narrowed to `float`; every `+=` and `-=` on `newPosX`, `newPosY` is a `float`
operation.  `setPlayerPos` stores a `float` argument or `10` or `246` as it
is. -/
def applyInput {α : Type} [LinearOrderedField α] (toFloat toDouble : α → α) (cos sin : α → α)
    (tank : Bool) (keystate : Keys) (s : State α) : State α :=
  let newPosX := s.position.x
  let newPosY := s.position.y
  if tank then
    let s := if keystate.left
      then rotatePlayer toFloat toDouble cos sin (toFloat (-(toDouble ROTATION_ANGLE_PER_TICK))) s
      else s
    let s := if keystate.right
      then rotatePlayer toFloat toDouble cos sin (toFloat (toDouble ROTATION_ANGLE_PER_TICK)) s
      else s
    let newPosX := if keystate.up then toFloat (newPosX + s.positionDelta.x) else newPosX
    let newPosY := if keystate.up then toFloat (newPosY + s.positionDelta.y) else newPosY
    let newPosX := if keystate.down then toFloat (newPosX - s.positionDelta.x) else newPosX
    let newPosY := if keystate.down then toFloat (newPosY - s.positionDelta.y) else newPosY
    setPlayerPos newPosX newPosY s
  else
    let newPosY := if keystate.up then toFloat (newPosY - (MOVE_SPEED : α)) else newPosY
    let newPosY := if keystate.down then toFloat (newPosY + (MOVE_SPEED : α)) else newPosY
    let newPosX := if keystate.left then toFloat (newPosX - (MOVE_SPEED : α)) else newPosX
    let newPosX := if keystate.right then toFloat (newPosX + (MOVE_SPEED : α)) else newPosX
    setPlayerPos newPosX newPosY s

/-- One tank-control frame in the words of the specification, with the
roundings of the program: `rotate` by minus the rotation step if Left is held,
then `rotate` by plus the rotation step if Right is held; then the movement
vector then current is added to the position at the start of the frame if Up
is held (Forward) and subtracted from the result if Down is held (Backward),
each as one `float` operation, and the result goes through one `setPosition`. -/
def tankFrameSpec {α : Type} [LinearOrderedField α] (toFloat toDouble : α → α) (cos sin : α → α)
    (keystate : Keys) (s : State α) : State α :=
  let r1 := if keystate.left
    then rotatePlayer toFloat toDouble cos sin (toFloat (-(toDouble ROTATION_ANGLE_PER_TICK))) s
    else s
  let r2 := if keystate.right
    then rotatePlayer toFloat toDouble cos sin (toFloat (toDouble ROTATION_ANGLE_PER_TICK)) r1
    else r1
  let forwardX := if keystate.up then toFloat (s.position.x + r2.positionDelta.x) else s.position.x
  let forwardY := if keystate.up then toFloat (s.position.y + r2.positionDelta.y) else s.position.y
  setPlayerPos
    (if keystate.down then toFloat (forwardX - r2.positionDelta.x) else forwardX)
    (if keystate.down then toFloat (forwardY - r2.positionDelta.y) else forwardY)
    r2

end Rounded

/-! ## Predicates and names used in the statements -/

/-- The position invariant of the player. -/
def PositionInv {α : Type} [LinearOrderedField α] (s : State α) : Prop :=
  (10 ≤ s.position.x ∧ s.position.x ≤ 246) ∧ (10 ≤ s.position.y ∧ s.position.y ≤ 246)

/-- The colour `drawMap2D` passes to `drawCell2D` for the cell in column `x`
and row `y`. -/
def cellColorAt (x y : Nat) : Nat :=
  if mapAt ((y : Int) * MAP_SIZE + (x : Int)) = 1 then 0x808080 else 0x151515

/-- One tank-control frame in the words of the specification: `rotate` by
minus the rotation step if Left is held, then `rotate` by plus the rotation
step if Right is held; then one `setPosition` of the position at the start of
the frame, plus the movement vector then current if Up is held, minus it if
Down is held. -/
def tankFrameSpec {α : Type} [LinearOrderedField α] (cos sin : α → α) (keystate : Keys)
    (s : State α) : State α :=
  let r1 := if keystate.left then rotatePlayer cos sin (-ROTATION_ANGLE_PER_TICK) s else s
  let r2 := if keystate.right then rotatePlayer cos sin ROTATION_ANGLE_PER_TICK r1 else r1
  setPlayerPos
    (s.position.x + (if keystate.up then 1 else 0) * r2.positionDelta.x
      - (if keystate.down then 1 else 0) * r2.positionDelta.x)
    (s.position.y + (if keystate.up then 1 else 0) * r2.positionDelta.y
      - (if keystate.down then 1 else 0) * r2.positionDelta.y)
    r2

/-! ## Loops -/

/-- A property kept by every iteration of a loop holds after the loop. -/
theorem foldl_keeps {σ β : Type} (Q : σ → Prop) (f : σ → β → σ) (l : List β) (s : σ)
    (hstep : ∀ b ∈ l, ∀ t, Q t → Q (f t b)) (hs : Q s) : Q (l.foldl f s) := by
  induction l generalizing s with
  | nil => simpa using hs
  | cons b l ih =>
    simp only [List.foldl_cons]
    apply ih
    · intro c hc t ht
      exact hstep c (List.mem_cons_of_mem _ hc) t ht
    · exact hstep b (List.mem_cons_self _ _) s hs

/-- A property set up by one iteration, whatever the state before it, and kept
by all iterations holds after the loop. -/
theorem foldl_sets {σ β : Type} (Q : σ → Prop) (f : σ → β → σ) (l : List β) (s : σ)
    (b0 : β) (hb0 : b0 ∈ l) (hset : ∀ t, Q (f t b0))
    (hstep : ∀ b ∈ l, ∀ t, Q t → Q (f t b)) : Q (l.foldl f s) := by
  induction l generalizing s with
  | nil => cases hb0
  | cons b l ih =>
    simp only [List.foldl_cons]
    rcases List.mem_cons.mp hb0 with h | h
    · subst h
      apply foldl_keeps Q f l
      · intro c hc t ht
        exact hstep c (List.mem_cons_of_mem _ hc) t ht
      · exact hset s
    · apply ih _ h
      intro c hc t ht
      exact hstep c (List.mem_cons_of_mem _ hc) t ht

/-! ## `clamp` -/

/-- The two conditionals of `clamp` as one case distinction. -/
theorem clamp_cases {α : Type} [LinearOrder α] (d lo hi : α) (h : lo ≤ hi) :
    clamp d lo hi = if d < lo then lo else if d > hi then hi else d := by
  unfold clamp
  by_cases h1 : d < lo
  · simp [h1, not_lt.mpr h]
  · simp [h1]

/-- With ordered bounds the result of `clamp` lies between them. -/
theorem clamp_mem {α : Type} [LinearOrder α] (d lo hi : α) (h : lo ≤ hi) :
    lo ≤ clamp d lo hi ∧ clamp d lo hi ≤ hi := by
  rw [clamp_cases d lo hi h]
  by_cases h1 : d < lo
  · simp [h1, h]
  · by_cases h2 : d > hi
    · simp [h1, h2, h]
    · simp [h1, h2, not_lt.mp h1, not_lt.mp h2]

/-- A value between the bounds is returned as it is. -/
theorem clamp_of_mem {α : Type} [LinearOrder α] (d lo hi : α) (h1 : lo ≤ d) (h2 : d ≤ hi) :
    clamp d lo hi = d := by
  unfold clamp
  simp [not_lt.mpr h1, not_lt.mpr h2]

/-- Claim C10: for `min ≤ max`, `clamp value min max` is `min` when
`value < min`, `max` when `value > max` and `value` otherwise; the result lies
in `[min, max]` and equals `value` exactly when `value` is in `[min, max]`. -/
theorem clamp_spec {α : Type} [LinearOrder α] (value min max : α) (h : min ≤ max) :
    clamp value min max = (if value < min then min else if value > max then max else value)
      ∧ min ≤ clamp value min max ∧ clamp value min max ≤ max
      ∧ (clamp value min max = value ↔ min ≤ value ∧ value ≤ max) := by
  refine ⟨clamp_cases value min max h, (clamp_mem value min max h).1,
    (clamp_mem value min max h).2, ?_, ?_⟩
  · intro he
    have hm := clamp_mem value min max h
    rw [he] at hm
    exact hm
  · intro hm
    exact clamp_of_mem value min max hm.1 hm.2

/-- Claim C10 at `value = 300`, `min = 0`, `max = 256`. -/
theorem clamp_spec_witness :
    (0 : Int) ≤ 256
      ∧ (clamp (300 : Int) 0 256 = (if (300 : Int) < 0 then 0 else if (300 : Int) > 256 then 256 else 300)
      ∧ (0 : Int) ≤ clamp 300 0 256 ∧ clamp (300 : Int) 0 256 ≤ 256
      ∧ (clamp (300 : Int) 0 256 = 300 ↔ (0 : Int) ≤ 300 ∧ (300 : Int) ≤ 256)) :=
  ⟨by decide, clamp_spec 300 0 256 (by decide)⟩

/-! ## Player position -/

/-- The lower clamp bound of `setPlayerPos`, as a number. -/
theorem padding_cast {α : Type} [LinearOrderedField α] : ((SCREEN_PADDING : Int) : α) = 10 := by
  simp [SCREEN_PADDING]

/-- The upper clamp bound of `setPlayerPos` for `x`, as a number. -/
theorem width_padding_cast {α : Type} [LinearOrderedField α] :
    (((SCREEN_WIDTH - SCREEN_PADDING : Int)) : α) = 246 := by
  norm_num [SCREEN_WIDTH, SCREEN_PADDING]

/-- The upper clamp bound of `setPlayerPos` for `y`, as a number. -/
theorem height_padding_cast {α : Type} [LinearOrderedField α] :
    (((SCREEN_HEIGHT - SCREEN_PADDING : Int)) : α) = 246 := by
  norm_num [SCREEN_HEIGHT, SCREEN_PADDING]

/-- The position stored by `setPlayerPos`. -/
theorem setPlayerPos_position {α : Type} [LinearOrderedField α] (new_x new_y : α) (s : State α) :
    (setPlayerPos new_x new_y s).position = ⟨clamp new_x 10 246, clamp new_y 10 246⟩ := by
  simp only [setPlayerPos, padding_cast, width_padding_cast, height_padding_cast]

/-- Whatever the arguments, `setPlayerPos` leaves a position inside the padding. -/
theorem setPlayerPos_inv {α : Type} [LinearOrderedField α] (new_x new_y : α) (s : State α) :
    PositionInv (setPlayerPos new_x new_y s) := by
  unfold PositionInv
  rw [setPlayerPos_position]
  exact ⟨clamp_mem new_x 10 246 (by norm_num), clamp_mem new_y 10 246 (by norm_num)⟩

/-- The state after `init_game` satisfies the position invariant. -/
theorem init_game_inv {α : Type} [LinearOrderedField α] (cos sin : α → α) (s : State α) :
    PositionInv (init_game cos sin s) := by
  have h := setPlayerPos_inv ((Int.tdiv SCREEN_WIDTH 2 : Int) : α)
    ((Int.tdiv SCREEN_HEIGHT 2 : Int) : α) s
  exact h

/-- Every `applyInput` frame ends in `setPlayerPos`, so it leaves the position
inside the padding. -/
theorem applyInput_inv {α : Type} [LinearOrderedField α] (cos sin : α → α) (tank : Bool)
    (keystate : Keys) (s : State α) : PositionInv (applyInput cos sin tank keystate s) := by
  unfold applyInput
  cases tank
  · exact setPlayerPos_inv _ _ _
  · exact setPlayerPos_inv _ _ _

/-- Claim C1: after `init_game` and any number of `applyInput` frames, with
any keys held in each frame and with either control scheme, `position.x` and
`position.y` both lie in `[10, 246]`. -/
theorem position_invariant {α : Type} [LinearOrderedField α] (cos sin : α → α) (tank : Bool)
    (frames : List Keys) (s : State α) :
    (10 ≤ (runFrames cos sin tank frames s).position.x
        ∧ (runFrames cos sin tank frames s).position.x ≤ 246)
      ∧ (10 ≤ (runFrames cos sin tank frames s).position.y
        ∧ (runFrames cos sin tank frames s).position.y ≤ 246) := by
  have h : PositionInv (runFrames cos sin tank frames s) := by
    unfold runFrames
    apply foldl_keeps PositionInv
    · intro k _ t _
      exact applyInput_inv cos sin tank k t
    · exact init_game_inv cos sin s
  exact h

/-- Claim C2: `setPlayerPos new_x new_y` stores the position
`(clamp(new_x, 10, 246), clamp(new_y, 10, 246))`, written out as the case
distinction of `clamp`; the stored `x` does not depend on `new_y` nor the
stored `y` on `new_x`; angle, position delta and pixels are unchanged. -/
theorem setPlayerPos_spec {α : Type} [LinearOrderedField α] (new_x new_y : α) (s : State α) :
    (setPlayerPos new_x new_y s).position.x
        = (if new_x < 10 then 10 else if new_x > 246 then 246 else new_x)
      ∧ (setPlayerPos new_x new_y s).position.y
        = (if new_y < 10 then 10 else if new_y > 246 then 246 else new_y)
      ∧ (∀ other_y : α, (setPlayerPos new_x other_y s).position.x
          = (setPlayerPos new_x new_y s).position.x)
      ∧ (∀ other_x : α, (setPlayerPos other_x new_y s).position.y
          = (setPlayerPos new_x new_y s).position.y)
      ∧ (setPlayerPos new_x new_y s).angle = s.angle
      ∧ (setPlayerPos new_x new_y s).positionDelta = s.positionDelta
      ∧ (setPlayerPos new_x new_y s).pixels = s.pixels := by
  refine ⟨?_, ?_, ?_, ?_, rfl, rfl, rfl⟩
  · rw [setPlayerPos_position]
    exact clamp_cases new_x 10 246 (by norm_num)
  · rw [setPlayerPos_position]
    exact clamp_cases new_y 10 246 (by norm_num)
  · intro other_y
    simp only [setPlayerPos_position]
  · intro other_x
    simp only [setPlayerPos_position]

/-! ## Rotation -/

/-- The heading stored by `rotatePlayer`, with the two conditionals of the
source merged into one case distinction. -/
theorem rotatePlayer_angle {α : Type} [LinearOrderedField α] (cos sin : α → α) (d : α)
    (s : State α) :
    (rotatePlayer cos sin d s).angle
      = if d > 0 ∧ s.angle + d > 2 * PI then s.angle + d - 2 * PI
        else if d < 0 ∧ s.angle + d < 0 then s.angle + d + 2 * PI
        else s.angle + d := by
  unfold rotatePlayer
  by_cases h1 : d > 0 ∧ s.angle + d > 2 * PI
  · have h2 : ¬ d < 0 := not_lt.mpr (le_of_lt h1.1)
    simp [h1, h2]
  · simp [h1]

/-- The position delta stored by `rotatePlayer` is computed from the new heading. -/
theorem rotatePlayer_positionDelta {α : Type} [LinearOrderedField α] (cos sin : α → α) (d : α)
    (s : State α) :
    (rotatePlayer cos sin d s).positionDelta
      = ⟨cos (rotatePlayer cos sin d s).angle * 2, sin (rotatePlayer cos sin d s).angle * 2⟩ := by
  simp [rotatePlayer, MOVE_SPEED]

/-- A positive step that does not pass `2 * PI` is a plain addition. -/
theorem rotatePlayer_angle_plain {α : Type} [LinearOrderedField α] (cos sin : α → α) (d : α)
    (s : State α) (hd : 0 < d) (h : s.angle + d ≤ 2 * PI) :
    (rotatePlayer cos sin d s).angle = s.angle + d := by
  rw [rotatePlayer_angle]
  simp [not_lt.mpr h, not_lt.mpr (le_of_lt hd)]

/-- One more iteration, applied last. -/
theorem iterate_succ_last {σ : Type} (f : σ → σ) (n : Nat) (s : σ) :
    f^[n + 1] s = f (f^[n] s) := by
  induction n generalizing s with
  | zero => rfl
  | succ m ih =>
    rw [Function.iterate_succ_apply, ih (f s), ← Function.iterate_succ_apply]

/-- Starting from heading `PI`, `k ≤ 10` steps of `ROTATION_ANGLE_PER_TICK` give
heading `PI + k / 10`. -/
theorem rotate_steps_from_PI {α : Type} [LinearOrderedField α] (cos sin : α → α)
    (s : State α) (k : Nat) (hk : k ≤ 10) :
    ((rotatePlayer cos sin ROTATION_ANGLE_PER_TICK)^[k] { s with angle := PI }).angle
      = PI + (k : α) / 10 := by
  induction k with
  | zero => simp
  | succ n ih =>
    have hn : n ≤ 10 := Nat.le_of_succ_le hk
    have hn1 : (n : α) + 1 ≤ 10 := by exact_mod_cast hk
    rw [iterate_succ_last, rotatePlayer_angle_plain, ih hn]
    · unfold ROTATION_ANGLE_PER_TICK
      push_cast
      ring
    · unfold ROTATION_ANGLE_PER_TICK
      norm_num
    · rw [ih hn]
      unfold ROTATION_ANGLE_PER_TICK PI
      have h0 : (0 : α) ≤ (n : α) := Nat.cast_nonneg n
      linarith

/-- In exact arithmetic `rotatePlayer d` stores the heading `h + d - 2π` if
`d > 0` and `h + d > 2π`, `h + d + 2π` if `d < 0` and `h + d < 0`, and `h + d`
otherwise; the position delta becomes `(cos, sin)` of the new heading times
`MOVE_SPEED = 2`; position and pixels are unchanged.  Ten calls with
`ROTATION_ANGLE_PER_TICK` from heading `PI` give `PI + 1`, every intermediate
heading being `PI + k / 10` (no wrap). -/
theorem rotatePlayer_exact {α : Type} [LinearOrderedField α] (cos sin : α → α) (d : α)
    (s : State α) :
    (rotatePlayer cos sin d s).angle
        = (if d > 0 ∧ s.angle + d > 2 * PI then s.angle + d - 2 * PI
          else if d < 0 ∧ s.angle + d < 0 then s.angle + d + 2 * PI
          else s.angle + d)
      ∧ (rotatePlayer cos sin d s).positionDelta.x
        = cos (rotatePlayer cos sin d s).angle * ((MOVE_SPEED : Int) : α)
      ∧ (rotatePlayer cos sin d s).positionDelta.y
        = sin (rotatePlayer cos sin d s).angle * ((MOVE_SPEED : Int) : α)
      ∧ ((MOVE_SPEED : Int) : α) = 2
      ∧ (rotatePlayer cos sin d s).position = s.position
      ∧ (rotatePlayer cos sin d s).pixels = s.pixels
      ∧ ((rotatePlayer cos sin ROTATION_ANGLE_PER_TICK)^[10] { s with angle := PI }).angle
        = PI + 1
      ∧ (∀ k : Fin 11,
          ((rotatePlayer cos sin ROTATION_ANGLE_PER_TICK)^[k.val] { s with angle := PI }).angle
            = PI + (k.val : α) / 10) := by
  refine ⟨rotatePlayer_angle cos sin d s, rfl, rfl, by simp [MOVE_SPEED], rfl, rfl, ?_, ?_⟩
  · have h := rotate_steps_from_PI cos sin s 10 (le_refl 10)
    rw [h]
    norm_num
  · intro k
    exact rotate_steps_from_PI cos sin s k.val (Nat.le_of_lt_succ k.isLt)

/-! ## Pixel indices -/

/-- The value of `convertPixelCoordToLinear` with the constants written out. -/
theorem convert_eq (x y : Int) :
    convertPixelCoordToLinear x y = clamp y 0 256 * 256 + clamp x 0 256 := rfl

/-- The integer `clamp` to `[0, 256]` as a case distinction. -/
theorem clamp_screen (v : Int) :
    clamp v 0 256 = if v < 0 then 0 else if v > 256 then 256 else v :=
  clamp_cases v 0 256 (by decide)

/-- Claim C7 as stated fails: `convertPixelCoordToLinear 256 0` is `256`, an
index inside the buffer, although `x = 256` is not below `SCREEN_WIDTH`. -/
theorem convert_in_range_x_not_below_width :
    convertPixelCoordToLinear 256 0 = 256
      ∧ (0 ≤ convertPixelCoordToLinear 256 0
        ∧ convertPixelCoordToLinear 256 0 ≤ SCREEN_WIDTH * SCREEN_HEIGHT - 1)
      ∧ ¬ ((256 : Int) < SCREEN_WIDTH ∧ (0 : Int) < SCREEN_HEIGHT) := by
  decide

/-- Claim C7, amended: when the index returned by `convertPixelCoordToLinear`
lies in `[0, SCREEN_WIDTH * SCREEN_HEIGHT - 1]`, then `y < SCREEN_HEIGHT` and
either `x < SCREEN_WIDTH` or `y < SCREEN_HEIGHT - 1`. -/
theorem convert_in_range_only_when (x y : Int)
    (h : 0 ≤ convertPixelCoordToLinear x y
      ∧ convertPixelCoordToLinear x y ≤ SCREEN_WIDTH * SCREEN_HEIGHT - 1) :
    y < SCREEN_HEIGHT ∧ (x < SCREEN_WIDTH ∨ y < SCREEN_HEIGHT - 1) := by
  rw [convert_eq, clamp_screen, clamp_screen] at h
  unfold SCREEN_WIDTH SCREEN_HEIGHT at *
  split_ifs at h <;> omega

/-- Claim C7, amended, at `x = 300`, `y = 7`: the index `2048` is inside the
buffer, `y < 256` and `y < 255`. -/
theorem convert_in_range_only_when_witness :
    (0 ≤ convertPixelCoordToLinear 300 7
        ∧ convertPixelCoordToLinear 300 7 ≤ SCREEN_WIDTH * SCREEN_HEIGHT - 1)
      ∧ ((7 : Int) < SCREEN_HEIGHT ∧ ((300 : Int) < SCREEN_WIDTH ∨ (7 : Int) < SCREEN_HEIGHT - 1)) :=
  ⟨by decide, convert_in_range_only_when 300 7 (by decide)⟩

/-- Claim C8: for `y ≥ SCREEN_HEIGHT` the index is at least
`SCREEN_WIDTH * SCREEN_HEIGHT`, one row past the buffer; for `x ≥ SCREEN_WIDTH`
and `0 ≤ y ≤ SCREEN_HEIGHT` the index is `(y + 1) * SCREEN_WIDTH`, the first
entry of the row after `y`. -/
theorem convert_boundary (x y : Int) :
    (SCREEN_HEIGHT ≤ y → SCREEN_WIDTH * SCREEN_HEIGHT ≤ convertPixelCoordToLinear x y)
      ∧ (SCREEN_WIDTH ≤ x → 0 ≤ y → y ≤ SCREEN_HEIGHT →
          convertPixelCoordToLinear x y = (y + 1) * SCREEN_WIDTH) := by
  rw [convert_eq, clamp_screen, clamp_screen]
  unfold SCREEN_WIDTH SCREEN_HEIGHT
  constructor
  · intro h
    split_ifs <;> omega
  · intro h1 h2 h3
    split_ifs <;> omega

/-- Claim C8 at `(x, y) = (-4, 256)` and at `(x, y) = (256, 3)`. -/
theorem convert_boundary_witness :
    (SCREEN_HEIGHT ≤ 256 ∧ SCREEN_WIDTH * SCREEN_HEIGHT ≤ convertPixelCoordToLinear (-4) 256)
      ∧ (SCREEN_WIDTH ≤ 256 ∧ (0 : Int) ≤ 3 ∧ 3 ≤ SCREEN_HEIGHT
        ∧ convertPixelCoordToLinear 256 3 = (3 + 1) * SCREEN_WIDTH) :=
  ⟨⟨by decide, (convert_boundary (-4) 256).1 (by decide)⟩,
    by decide, by decide, by decide,
    (convert_boundary 256 3).2 (by decide) (by decide) (by decide)⟩

/-- Claim C9: `convertPixelCoordToLinear` is total on the integers and returns
`clamp(y, 0, SCREEN_HEIGHT) * SCREEN_WIDTH + clamp(x, 0, SCREEN_WIDTH)`, the
clamps written with `max` and `min`; the result lies in `[0, 256 * 256 + 256]`
and is `y * 256 + x` when `0 ≤ x ≤ 256` and `0 ≤ y ≤ 256`. -/
theorem convert_spec (x y : Int) :
    convertPixelCoordToLinear x y
        = max 0 (min y SCREEN_HEIGHT) * SCREEN_WIDTH + max 0 (min x SCREEN_WIDTH)
      ∧ (0 ≤ convertPixelCoordToLinear x y ∧ convertPixelCoordToLinear x y ≤ 256 * 256 + 256)
      ∧ (0 ≤ x ∧ x ≤ 256 → 0 ≤ y ∧ y ≤ 256 → convertPixelCoordToLinear x y = y * 256 + x) := by
  rw [convert_eq, clamp_screen, clamp_screen]
  unfold SCREEN_WIDTH SCREEN_HEIGHT
  refine ⟨?_, ?_, ?_⟩
  · split_ifs <;> omega
  · split_ifs <;> omega
  · intro h1 h2
    split_ifs <;> omega

/-- Claim C9 at the out-of-range input `(-5, 300)` and the in-range input
`(256, 256)`. -/
theorem convert_spec_witness :
    convertPixelCoordToLinear (-5) 300 = 65536
      ∧ (((0 : Int) ≤ 256 ∧ (256 : Int) ≤ 256)
        ∧ convertPixelCoordToLinear 256 256 = 256 * 256 + 256) :=
  ⟨by rw [(convert_spec (-5) 300).1]; decide,
    by decide, (convert_spec 256 256).2.2 (by decide) (by decide)⟩

/-! ## Drawing a cell -/

/-- Writing a pixel leaves every other entry as it was. -/
theorem setPixel_pixels_ne {α : Type} (s : State α) (i j : Int) (v : Nat) (h : j ≠ i) :
    (setPixel s i v).pixels j = s.pixels j := by
  simp [setPixel, h]

/-- Writing a pixel stores the value at that entry. -/
theorem setPixel_pixels_eq {α : Type} (s : State α) (i : Int) (v : Nat) :
    (setPixel s i v).pixels i = v := by
  simp [setPixel]

/-- The number of columns (and rows) of pixels in a cell. -/
theorem cell_size_toNat : CELL_SIZE_X.toNat = 32 ∧ CELL_SIZE_Y.toNat = 32 := by
  decide

/-- The buffer index written by `drawCell2D x y` for the local pixel `(px, py)`:
inside the grid no coordinate is clamped. -/
theorem cell_index (x y : Int) (px py : Nat) (hx : 0 ≤ x ∧ x < 8) (hy : 0 ≤ y ∧ y < 8)
    (hpx : px < 32) (hpy : py < 32) :
    convertPixelCoordToLinear (Int.tdiv (x * SCREEN_WIDTH) MAP_SIZE + px)
        (Int.tdiv (y * SCREEN_HEIGHT) MAP_SIZE + py)
      = (y * 32 + py) * 256 + (x * 32 + px) := by
  have h1 : Int.tdiv (x * SCREEN_WIDTH) MAP_SIZE = x * 32 := by
    have h : x * SCREEN_WIDTH = (x * 32) * MAP_SIZE := by
      unfold SCREEN_WIDTH MAP_SIZE
      ring
    rw [h]
    exact Int.mul_tdiv_cancel (x * 32) (by decide)
  have h2 : Int.tdiv (y * SCREEN_HEIGHT) MAP_SIZE = y * 32 := by
    have h : y * SCREEN_HEIGHT = (y * 32) * MAP_SIZE := by
      unfold SCREEN_HEIGHT MAP_SIZE
      ring
    rw [h]
    exact Int.mul_tdiv_cancel (y * 32) (by decide)
  rw [h1, h2, convert_eq, clamp_of_mem, clamp_of_mem] <;> omega

/-- The colour `drawCell2D` stores at the local pixel `(px, py)` of a cell:
the two divider tests fire at `px = 0` and at `py = 0` only, because
`px > CELL_SIZE_X - dw` asks for `px > 31` and the loops stop at `31`. -/
theorem cell_colour (px py : Nat) (color : Nat) (hpx : px < 32) (hpy : py < 32) :
    (if (decide ((px : Int) < 1) || decide ((px : Int) > CELL_SIZE_X - 1)
          || (decide ((py : Int) < 1) || decide ((py : Int) > CELL_SIZE_X - 1))) = true
        then 0x000000 else color)
      = if px = 0 ∨ py = 0 then 0 else color := by
  have hc : CELL_SIZE_X = 32 := by decide
  rw [hc]
  by_cases h1 : px = 0
  · simp [h1]
  · by_cases h2 : py = 0
    · simp [h2]
    · have a1 : ¬ ((px : Int) < 1) := by omega
      have a2 : ¬ ((px : Int) > 32 - 1) := by omega
      have a3 : ¬ ((py : Int) < 1) := by omega
      have a4 : ¬ ((py : Int) > 32 - 1) := by omega
      simp [h1, h2, a1, a2, a3, a4]
      intro h
      rcases h with h | h <;> omega

/-- After `drawCell2D x y color`, the entry of the local pixel `(px, py)` of
the cell holds black when `px = 0` or `py = 0` and `color` otherwise. -/
theorem drawCell2D_footprint {α : Type} (x y : Int) (color : Nat) (s : State α) (px py : Nat)
    (hx : 0 ≤ x ∧ x < 8) (hy : 0 ≤ y ∧ y < 8) (hpx : px < 32) (hpy : py < 32) :
    (drawCell2D x y color s).pixels ((y * 32 + py) * 256 + (x * 32 + px))
      = if px = 0 ∨ py = 0 then 0 else color := by
  have keep : ∀ qx qy : Nat, qx < 32 → qy < 32 → ∀ t : State α,
      t.pixels ((y * 32 + py) * 256 + (x * 32 + px)) = (if px = 0 ∨ py = 0 then 0 else color) →
      (setPixel t (convertPixelCoordToLinear (Int.tdiv (x * SCREEN_WIDTH) MAP_SIZE + qx)
          (Int.tdiv (y * SCREEN_HEIGHT) MAP_SIZE + qy))
        (if (decide ((qx : Int) < 1) || decide ((qx : Int) > CELL_SIZE_X - 1)
          || (decide ((qy : Int) < 1) || decide ((qy : Int) > CELL_SIZE_X - 1))) = true
          then 0x000000 else color)).pixels ((y * 32 + py) * 256 + (x * 32 + px))
        = (if px = 0 ∨ py = 0 then 0 else color) := by
    intro qx qy hqx hqy t ht
    rw [cell_index x y qx qy hx hy hqx hqy, cell_colour qx qy color hqx hqy]
    by_cases he : ((y * 32 + py) * 256 + (x * 32 + px) : Int) = (y * 32 + qy) * 256 + (x * 32 + qx)
    · have e1 : qx = px := by omega
      have e2 : qy = py := by omega
      rw [he, setPixel_pixels_eq, e1, e2]
    · rw [setPixel_pixels_ne _ _ _ _ he]
      exact ht
  have hpxm : px ∈ List.range 32 := List.mem_range.mpr hpx
  have hpym : py ∈ List.range 32 := List.mem_range.mpr hpy
  have hlt : ∀ q ∈ List.range 32, q < 32 := fun q hq => List.mem_range.mp hq
  unfold drawCell2D
  rw [cell_size_toNat.1, cell_size_toNat.2]
  generalize List.range 32 = l at hpxm hpym hlt ⊢
  refine foldl_sets (fun t : State α =>
    t.pixels ((y * 32 + py) * 256 + (x * 32 + px)) = (if px = 0 ∨ py = 0 then 0 else color))
    _ l s px hpxm ?_ ?_
  · intro t
    refine foldl_sets (fun t : State α =>
      t.pixels ((y * 32 + py) * 256 + (x * 32 + px)) = (if px = 0 ∨ py = 0 then 0 else color))
      _ l t py hpym ?_ ?_
    · intro u
      show (setPixel u _ _).pixels _ = _
      rw [cell_index x y px py hx hy hpx hpy, cell_colour px py color hpx hpy, setPixel_pixels_eq]
    · intro qy hqy u hu
      exact keep px qy hpx (hlt qy hqy) u hu
  · intro qx hqx t ht
    refine foldl_keeps (fun t : State α =>
      t.pixels ((y * 32 + py) * 256 + (x * 32 + px)) = (if px = 0 ∨ py = 0 then 0 else color))
      _ l t ?_ ht
    intro qy hqy u hu
    exact keep qx qy (hlt qx hqx) (hlt qy hqy) u hu

/-- An entry outside the footprint of the cell is not touched by `drawCell2D`. -/
theorem drawCell2D_outside {α : Type} (x y : Int) (color : Nat) (s : State α) (j : Int)
    (hx : 0 ≤ x ∧ x < 8) (hy : 0 ≤ y ∧ y < 8)
    (hj : ∀ qx qy : Nat, qx < 32 → qy < 32 → j ≠ (y * 32 + qy) * 256 + (x * 32 + qx)) :
    (drawCell2D x y color s).pixels j = s.pixels j := by
  have hlt : ∀ q ∈ List.range 32, q < 32 := fun q hq => List.mem_range.mp hq
  unfold drawCell2D
  rw [cell_size_toNat.1, cell_size_toNat.2]
  generalize List.range 32 = l at hlt ⊢
  refine foldl_keeps (fun t : State α => t.pixels j = s.pixels j) _ l s ?_ rfl
  intro qx hqx t ht
  refine foldl_keeps (fun t : State α => t.pixels j = s.pixels j) _ l t ?_ ht
  intro qy hqy u hu
  show (setPixel u _ _).pixels j = _
  rw [cell_index x y qx qy hx hy (hlt qx hqx) (hlt qy hqy),
    setPixel_pixels_ne _ _ _ _ (hj qx qy (hlt qx hqx) (hlt qy hqy))]
  exact hu

/-- The player fields are not touched by `drawCell2D`. -/
theorem drawCell2D_player {α : Type} (x y : Int) (color : Nat) (s : State α) :
    (drawCell2D x y color s).angle = s.angle
      ∧ (drawCell2D x y color s).position = s.position
      ∧ (drawCell2D x y color s).positionDelta = s.positionDelta := by
  unfold drawCell2D
  refine foldl_keeps (fun t : State α =>
    t.angle = s.angle ∧ t.position = s.position ∧ t.positionDelta = s.positionDelta)
    _ _ s ?_ ⟨rfl, rfl, rfl⟩
  intro qx _ t ht
  refine foldl_keeps (fun t : State α =>
    t.angle = s.angle ∧ t.position = s.position ∧ t.positionDelta = s.positionDelta)
    _ _ t ?_ ht
  intro qy _ u hu
  exact hu

/-- Claim C4 fails on the code: after `drawCell2D 0 0 0x808080` the pixel with
local coordinates `(px, py) = (31, 5)`, on the right edge of the cell, holds
the cell colour and not black; and in every cell of the grid the right edge
`px = 31` and the bottom edge `py = 31` hold the requested colour away from
the top row and the left column. -/
theorem drawCell2D_far_edges_not_black {α : Type} (s : State α) :
    ((drawCell2D 0 0 0x808080 s).pixels (5 * 256 + 31) = 0x808080 ∧ (0x808080 : Nat) ≠ 0x000000)
      ∧ (∀ (x y : Fin 8) (q : Fin 31) (color : Nat),
          (drawCell2D x.val y.val color s).pixels
              (((y.val : Int) * 32 + ((q.val + 1 : Nat) : Int)) * 256
                + ((x.val : Int) * 32 + ((31 : Nat) : Int))) = color
            ∧ (drawCell2D x.val y.val color s).pixels
              (((y.val : Int) * 32 + ((31 : Nat) : Int)) * 256
                + ((x.val : Int) * 32 + ((q.val + 1 : Nat) : Int))) = color) := by
  refine ⟨⟨?_, by decide⟩, ?_⟩
  · have h := drawCell2D_footprint 0 0 0x808080 s 31 5 (by decide) (by decide)
      (by decide) (by decide)
    have e : ((0 : Int) * 32 + ((5 : Nat) : Int)) * 256 + (0 * 32 + ((31 : Nat) : Int))
        = 5 * 256 + 31 := by decide
    rw [e] at h
    rw [h]
    exact if_neg (by decide)
  · intro x y q color
    have hx : (0 : Int) ≤ (x.val : Int) ∧ (x.val : Int) < 8 := by omega
    have hy : (0 : Int) ≤ (y.val : Int) ∧ (y.val : Int) < 8 := by omega
    constructor
    · rw [drawCell2D_footprint x.val y.val color s 31 (q.val + 1) hx hy (by decide) (by omega)]
      simp
    · rw [drawCell2D_footprint x.val y.val color s (q.val + 1) 31 hx hy (by omega) (by decide)]
      simp

/-! ## Drawing the map -/

/-- After `drawMap2D`, the entry of the local pixel `(px, py)` of the cell in
column `c` and row `r` holds black when `px = 0` or `py = 0` and the colour of
that cell otherwise: each entry is written by its own cell only. -/
theorem drawMap2D_cell_pixel {α : Type} (s : State α) (c r px py : Nat)
    (hc : c < 8) (hr : r < 8) (hpx : px < 32) (hpy : py < 32) :
    (drawMap2D s).pixels (((r : Int) * 32 + py) * 256 + ((c : Int) * 32 + px))
      = if px = 0 ∨ py = 0 then 0 else cellColorAt c r := by
  have keep : ∀ qc qr : Nat, qc < 8 → qr < 8 → ∀ t : State α,
      t.pixels (((r : Int) * 32 + py) * 256 + ((c : Int) * 32 + px))
        = (if px = 0 ∨ py = 0 then 0 else cellColorAt c r) →
      (drawCell2D (qc : Int) (qr : Int) (cellColorAt qc qr) t).pixels
          (((r : Int) * 32 + py) * 256 + ((c : Int) * 32 + px))
        = (if px = 0 ∨ py = 0 then 0 else cellColorAt c r) := by
    intro qc qr hqc hqr t ht
    by_cases he : qc = c ∧ qr = r
    · rw [he.1, he.2]
      exact drawCell2D_footprint (c : Int) (r : Int) (cellColorAt c r) t px py
        (by omega) (by omega) hpx hpy
    · rw [drawCell2D_outside (qc : Int) (qr : Int) (cellColorAt qc qr) t _ (by omega) (by omega)]
      · exact ht
      · intro qx qy hqx hqy
        omega
  have hcm : c ∈ List.range 8 := List.mem_range.mpr hc
  have hrm : r ∈ List.range 8 := List.mem_range.mpr hr
  have hlt : ∀ q ∈ List.range 8, q < 8 := fun q hq => List.mem_range.mp hq
  have hm : MAP_SIZE.toNat = 8 := by decide
  have hfold : drawMap2D s = (List.range 8).foldl (fun (t : State α) (x : Nat) =>
      (List.range 8).foldl (fun (u : State α) (y : Nat) =>
        drawCell2D (x : Int) (y : Int) (cellColorAt x y) u) t) s := by
    unfold drawMap2D cellColorAt
    rw [hm]
  rw [hfold]
  generalize List.range 8 = l at hcm hrm hlt ⊢
  refine foldl_sets (fun t : State α =>
    t.pixels (((r : Int) * 32 + py) * 256 + ((c : Int) * 32 + px))
      = (if px = 0 ∨ py = 0 then 0 else cellColorAt c r)) _ l s c hcm ?_ ?_
  · intro t
    refine foldl_sets (fun t : State α =>
      t.pixels (((r : Int) * 32 + py) * 256 + ((c : Int) * 32 + px))
        = (if px = 0 ∨ py = 0 then 0 else cellColorAt c r)) _ l t r hrm ?_ ?_
    · intro u
      exact drawCell2D_footprint (c : Int) (r : Int) (cellColorAt c r) u px py
        (by omega) (by omega) hpx hpy
    · intro qr hqr u hu
      exact keep c qr hc (hlt qr hqr) u hu
  · intro qc hqc t ht
    refine foldl_keeps (fun t : State α =>
      t.pixels (((r : Int) * 32 + py) * 256 + ((c : Int) * 32 + px))
        = (if px = 0 ∨ py = 0 then 0 else cellColorAt c r)) _ l t ?_ ht
    intro qr hqr u hu
    exact keep qc qr (hlt qc hqc) (hlt qr hqr) u hu

/-- The player fields are not touched by `drawMap2D`. -/
theorem drawMap2D_player {α : Type} (s : State α) :
    (drawMap2D s).angle = s.angle
      ∧ (drawMap2D s).position = s.position
      ∧ (drawMap2D s).positionDelta = s.positionDelta := by
  unfold drawMap2D
  refine foldl_keeps (fun t : State α =>
    t.angle = s.angle ∧ t.position = s.position ∧ t.positionDelta = s.positionDelta)
    _ _ s ?_ ⟨rfl, rfl, rfl⟩
  intro qc _ t ht
  refine foldl_keeps (fun t : State α =>
    t.angle = s.angle ∧ t.position = s.position ∧ t.positionDelta = s.positionDelta)
    _ _ t ?_ ht
  intro qr _ u hu
  have h := drawCell2D_player (qc : Int) (qr : Int) (cellColorAt qc qr) u
  exact ⟨h.1.trans hu.1, h.2.1.trans hu.2.1, h.2.2.trans hu.2.2⟩

/-- Claim C6: after `drawMap2D`, every screen pixel `(X, Y)` with
`0 ≤ X, Y < 256`, `1 ≤ X mod 32 ≤ 30` and `1 ≤ Y mod 32 ≤ 30` holds `0x808080`
when `map[(Y div 32) * 8 + X div 32]` is `1` and `0x151515` otherwise; and
`drawCell2D` for any other cell of the grid leaves that entry as it was. -/
theorem drawMap2D_interior {α : Type} (s : State α) (X Y : Int)
    (hX : 0 ≤ X ∧ X < 256) (hY : 0 ≤ Y ∧ Y < 256)
    (hpx : 1 ≤ X % 32 ∧ X % 32 ≤ 30) (hpy : 1 ≤ Y % 32 ∧ Y % 32 ≤ 30) :
    (drawMap2D s).pixels (Y * SCREEN_WIDTH + X)
        = (if mapAt ((Y / 32) * MAP_SIZE + X / 32) = 1 then 0x808080 else 0x151515)
      ∧ (∀ (col row : Int) (color : Nat) (t : State α),
          (0 ≤ col ∧ col < 8) → (0 ≤ row ∧ row < 8) → ¬ (col = X / 32 ∧ row = Y / 32) →
          (drawCell2D col row color t).pixels (Y * SCREEN_WIDTH + X)
            = t.pixels (Y * SCREEN_WIDTH + X)) := by
  constructor
  · have h := drawMap2D_cell_pixel s (X / 32).toNat (Y / 32).toNat (X % 32).toNat (Y % 32).toNat
      (by omega) (by omega) (by omega) (by omega)
    have e : (((Y / 32).toNat : Int) * 32 + ((Y % 32).toNat : Nat)) * 256
        + (((X / 32).toNat : Int) * 32 + ((X % 32).toNat : Nat)) = Y * SCREEN_WIDTH + X := by
      unfold SCREEN_WIDTH
      omega
    rw [e] at h
    rw [h, if_neg (by omega)]
    unfold cellColorAt
    have e1 : ((X / 32).toNat : Int) = X / 32 := by omega
    have e2 : ((Y / 32).toNat : Int) = Y / 32 := by omega
    rw [e1, e2]
  · intro col row color t hcol hrow hne
    apply drawCell2D_outside col row color t _ hcol hrow
    intro qx qy hqx hqy
    unfold SCREEN_WIDTH
    omega

/-- Claim C6 at the pixel `(X, Y) = (33, 65)`, inside the cell in column 1 and
row 2. -/
theorem drawMap2D_interior_witness :
    (((0 : Int) ≤ 33 ∧ (33 : Int) < 256) ∧ ((0 : Int) ≤ 65 ∧ (65 : Int) < 256)
        ∧ ((1 : Int) ≤ 33 % 32 ∧ (33 : Int) % 32 ≤ 30) ∧ ((1 : Int) ≤ 65 % 32 ∧ (65 : Int) % 32 ≤ 30))
      ∧ (drawMap2D (⟨fun _ => 7, 0, ⟨0, 0⟩, ⟨0, 0⟩⟩ : State ℚ)).pixels (65 * SCREEN_WIDTH + 33)
        = (if mapAt ((65 / 32) * MAP_SIZE + 33 / 32) = 1 then 0x808080 else 0x151515) :=
  ⟨by decide,
    (drawMap2D_interior (⟨fun _ => 7, 0, ⟨0, 0⟩, ⟨0, 0⟩⟩ : State ℚ) 33 65
      (by decide) (by decide) (by decide) (by decide)).1⟩

/-! ## Drawing the player -/

/-- Truncation of a non-negative value is its floor. -/
theorem truncToInt_of_nonneg {α : Type} [LinearOrderedField α] [FloorRing α] (v : α)
    (h : 0 ≤ v) : truncToInt v = ⌊v⌋ := by
  unfold truncToInt
  exact if_pos h

/-- The value of `clamp` for every input, ordered bounds or not. -/
theorem clamp_all_cases {α : Type} [LinearOrder α] (d lo hi : α) :
    clamp d lo hi
      = if d < lo then (if lo > hi then hi else lo) else if d > hi then hi else d := by
  unfold clamp
  by_cases h1 : d < lo
  · simp [h1]
  · simp [h1]

/-- Claim C11 as stated fails: with `min = 10 > max = 5` and `value = 0 < min`
the code returns `max = 5`, not `min = 10`. -/
theorem clamp_unordered_returns_max :
    (0 : Int) < 10 ∧ clamp (0 : Int) 10 5 = 5 ∧ clamp (0 : Int) 10 5 ≠ 10 := by
  decide

/-- Claim C11, amended: for all `value`, `min`, `max`, `clamp value min max`
is, for `value < min`, `max` when `min > max` and `min` otherwise; for
`value ≥ min` it is `max` when `value > max` and `value` otherwise.  This is
the composition `min (max value min) max` of the two order operations. -/
theorem clamp_two_branch {α : Type} [LinearOrder α] (value min max : α) :
    clamp value min max
        = (if value < min then (if min > max then max else min)
          else if value > max then max else value)
      ∧ clamp value min max = Min.min (Max.max value min) max := by
  refine ⟨clamp_all_cases value min max, ?_⟩
  unfold clamp
  by_cases h1 : value < min
  · by_cases h2 : min > max
    · simp [h1, h2, max_eq_right (le_of_lt h1), min_eq_right (le_of_lt h2)]
    · simp [h1, h2, max_eq_right (le_of_lt h1), min_eq_left (not_lt.mp h2)]
  · by_cases h2 : value > max
    · simp [h1, h2, max_eq_left (not_lt.mp h1), min_eq_right (le_of_lt h2)]
    · simp [h1, h2, max_eq_left (not_lt.mp h1), min_eq_left (not_lt.mp h2)]

/-! ## `init_game` and `setPlayerPos`, continued -/

/-- In exact arithmetic `init_game` produces, from any prior state, position
`(128, 128)`, heading `PI` and position delta `(cos PI, sin PI)`, not
multiplied by `MOVE_SPEED`; the pixels are untouched. -/
theorem init_game_exact {α : Type} [LinearOrderedField α] (cos sin : α → α) (s : State α) :
    (init_game cos sin s).position.x = 128
      ∧ (init_game cos sin s).position.y = 128
      ∧ (init_game cos sin s).angle = PI
      ∧ (init_game cos sin s).positionDelta.x = cos (init_game cos sin s).angle
      ∧ (init_game cos sin s).positionDelta.y = sin (init_game cos sin s).angle
      ∧ (init_game cos sin s).pixels = s.pixels := by
  have hp : (init_game cos sin s).position
      = (setPlayerPos ((Int.tdiv SCREEN_WIDTH 2 : Int) : α)
          ((Int.tdiv SCREEN_HEIGHT 2 : Int) : α) s).position := rfl
  have hw : ((Int.tdiv SCREEN_WIDTH 2 : Int) : α) = 128 := by
    have h : Int.tdiv SCREEN_WIDTH 2 = 128 := by decide
    rw [h]
    norm_num
  have hh : ((Int.tdiv SCREEN_HEIGHT 2 : Int) : α) = 128 := by
    have h : Int.tdiv SCREEN_HEIGHT 2 = 128 := by decide
    rw [h]
    norm_num
  rw [hp, setPlayerPos_position, hw, hh]
  refine ⟨?_, ?_, rfl, rfl, rfl, rfl⟩
  · exact clamp_of_mem 128 10 246 (by norm_num) (by norm_num)
  · exact clamp_of_mem 128 10 246 (by norm_num) (by norm_num)

/-- Clamping a clamped value with the same ordered bounds changes nothing. -/
theorem clamp_clamp {α : Type} [LinearOrder α] (d lo hi : α) (h : lo ≤ hi) :
    clamp (clamp d lo hi) lo hi = clamp d lo hi :=
  clamp_of_mem _ lo hi (clamp_mem d lo hi h).1 (clamp_mem d lo hi h).2

/-- Claim C15: `setPlayerPos` is idempotent: a second call with the same
input gives the state of the first call, and so does a call with the position
the first call stored. -/
theorem setPlayerPos_idempotent {α : Type} [LinearOrderedField α] (x y : α) (s : State α) :
    setPlayerPos x y (setPlayerPos x y s) = setPlayerPos x y s
      ∧ (setPlayerPos x y (setPlayerPos x y s)).position = (setPlayerPos x y s).position
      ∧ (setPlayerPos (setPlayerPos x y s).position.x (setPlayerPos x y s).position.y
          (setPlayerPos x y s)).position = (setPlayerPos x y s).position := by
  refine ⟨rfl, rfl, ?_⟩
  simp only [setPlayerPos_position]
  rw [clamp_clamp x 10 246 (by norm_num), clamp_clamp y 10 246 (by norm_num)]

/-! ## `applyInput` -/

/-- Claim C16: in grid mode one `applyInput` frame with exactly Up and Left
held stores the position `(clamp(x - 2, 10, 246), clamp(y - 2, 10, 246))`,
the clamp written as its case distinction, and leaves heading, position delta
and pixels unchanged. -/
theorem applyInput_grid_up_left {α : Type} [LinearOrderedField α] (cos sin : α → α)
    (s : State α) :
    (applyInput cos sin false ⟨true, false, true, false⟩ s).position.x
        = (if s.position.x - ((MOVE_SPEED : Int) : α) < 10 then 10
          else if s.position.x - ((MOVE_SPEED : Int) : α) > 246 then 246
          else s.position.x - ((MOVE_SPEED : Int) : α))
      ∧ (applyInput cos sin false ⟨true, false, true, false⟩ s).position.y
        = (if s.position.y - ((MOVE_SPEED : Int) : α) < 10 then 10
          else if s.position.y - ((MOVE_SPEED : Int) : α) > 246 then 246
          else s.position.y - ((MOVE_SPEED : Int) : α))
      ∧ ((MOVE_SPEED : Int) : α) = 2
      ∧ (applyInput cos sin false ⟨true, false, true, false⟩ s).position
        = (setPlayerPos (s.position.x - 2) (s.position.y - 2) s).position
      ∧ (applyInput cos sin false ⟨true, false, true, false⟩ s).angle = s.angle
      ∧ (applyInput cos sin false ⟨true, false, true, false⟩ s).positionDelta = s.positionDelta
      ∧ (applyInput cos sin false ⟨true, false, true, false⟩ s).pixels = s.pixels := by
  have hm : ((MOVE_SPEED : Int) : α) = 2 := by norm_num [MOVE_SPEED]
  have hp : (applyInput cos sin false ⟨true, false, true, false⟩ s).position
      = (setPlayerPos (s.position.x - ((MOVE_SPEED : Int) : α))
          (s.position.y - ((MOVE_SPEED : Int) : α)) s).position := by
    simp [applyInput]
  refine ⟨?_, ?_, hm, ?_, rfl, rfl, rfl⟩
  · rw [hp, setPlayerPos_position]
    exact clamp_cases _ 10 246 (by norm_num)
  · rw [hp, setPlayerPos_position]
    exact clamp_cases _ 10 246 (by norm_num)
  · rw [hp, hm]

/-! ## Rotation, continued -/

/-- Claim C13 as stated fails: with `cos PI = -1` and `sin PI = 0`, the state
after `init_game` has position delta `(-1, 0)`, and `rotatePlayer 0` turns it
into `(-2, 0)`. -/
theorem rotatePlayer_zero_after_init_changes_delta :
    (init_game (fun _ : ℚ => -1) (fun _ : ℚ => 0)
        (⟨fun _ => 0, 0, ⟨0, 0⟩, ⟨0, 0⟩⟩ : State ℚ)).positionDelta.x = -1
      ∧ (rotatePlayer (fun _ : ℚ => -1) (fun _ : ℚ => 0) 0
          (init_game (fun _ : ℚ => -1) (fun _ : ℚ => 0)
            (⟨fun _ => 0, 0, ⟨0, 0⟩, ⟨0, 0⟩⟩ : State ℚ))).positionDelta.x = -2 := by
  constructor
  · rfl
  · rw [rotatePlayer_positionDelta]
    norm_num

/-- Claim C13, amended: for every player state `rotatePlayer 0` leaves the
heading unchanged; it leaves the position delta unchanged when that already is
`(cos, sin)` of the heading times `MOVE_SPEED`, in particular in every state
produced by `rotatePlayer`; after `init_game` the heading is unchanged and the
position delta is doubled. -/
theorem rotatePlayer_zero {α : Type} [LinearOrderedField α] (cos sin : α → α) (s : State α) :
    (rotatePlayer cos sin 0 s).angle = s.angle
      ∧ (s.positionDelta
            = ⟨cos s.angle * ((MOVE_SPEED : Int) : α), sin s.angle * ((MOVE_SPEED : Int) : α)⟩ →
          (rotatePlayer cos sin 0 s).positionDelta = s.positionDelta)
      ∧ (∀ d : α, (rotatePlayer cos sin 0 (rotatePlayer cos sin d s)).positionDelta
          = (rotatePlayer cos sin d s).positionDelta)
      ∧ (rotatePlayer cos sin 0 (init_game cos sin s)).angle = (init_game cos sin s).angle
      ∧ (rotatePlayer cos sin 0 (init_game cos sin s)).positionDelta
        = ⟨(init_game cos sin s).positionDelta.x * 2, (init_game cos sin s).positionDelta.y * 2⟩ := by
  have ha : ∀ t : State α, (rotatePlayer cos sin 0 t).angle = t.angle := by
    intro t
    rw [rotatePlayer_angle]
    simp
  refine ⟨ha s, ?_, ?_, ha _, ?_⟩
  · intro h
    rw [rotatePlayer_positionDelta, ha s, h]
    simp [MOVE_SPEED]
  · intro d
    rw [rotatePlayer_positionDelta, ha, rotatePlayer_positionDelta]
  · rw [rotatePlayer_positionDelta, ha _]
    rfl

/-- Claim C13, amended, at a state with heading `1` and position delta
`(-1 * 2, 0 * 2)`, for `cos = -1` and `sin = 0`. -/
theorem rotatePlayer_zero_witness :
    ((⟨fun _ => 0, 1, ⟨128, 128⟩, ⟨-1 * 2, 0 * 2⟩⟩ : State ℚ).positionDelta
        = ⟨(fun _ : ℚ => -1) 1 * ((MOVE_SPEED : Int) : ℚ), (fun _ : ℚ => 0) 1 * ((MOVE_SPEED : Int) : ℚ)⟩)
      ∧ (rotatePlayer (fun _ : ℚ => -1) (fun _ : ℚ => 0) 0
          (⟨fun _ => 0, 1, ⟨128, 128⟩, ⟨-1 * 2, 0 * 2⟩⟩ : State ℚ)).positionDelta
        = (⟨fun _ => 0, 1, ⟨128, 128⟩, ⟨-1 * 2, 0 * 2⟩⟩ : State ℚ).positionDelta :=
  ⟨by simp [MOVE_SPEED],
    (rotatePlayer_zero (fun _ : ℚ => -1) (fun _ : ℚ => 0)
      (⟨fun _ => 0, 1, ⟨128, 128⟩, ⟨-1 * 2, 0 * 2⟩⟩ : State ℚ)).2.1 (by simp [MOVE_SPEED])⟩

/-- One `rotatePlayer` step of size below `2 * PI` keeps the heading in
`[0, 2 * PI]`. -/
theorem rotatePlayer_angle_range {α : Type} [LinearOrderedField α] (cos sin : α → α)
    (d : α) (s : State α) (h : 0 ≤ s.angle ∧ s.angle ≤ 2 * PI) (hd : |d| < 2 * PI) :
    0 ≤ (rotatePlayer cos sin d s).angle ∧ (rotatePlayer cos sin d s).angle ≤ 2 * PI := by
  have hd2 := abs_lt.mp hd
  rw [rotatePlayer_angle]
  by_cases c1 : d > 0 ∧ s.angle + d > 2 * PI
  · rw [if_pos c1]
    constructor <;> linarith [c1.1, c1.2, h.1, h.2, hd2.1, hd2.2]
  · rw [if_neg c1]
    by_cases c2 : d < 0 ∧ s.angle + d < 0
    · rw [if_pos c2]
      constructor <;> linarith [c2.1, c2.2, h.1, h.2, hd2.1, hd2.2]
    · rw [if_neg c2]
      constructor
      · by_contra hneg
        have hlt : s.angle + d < 0 := not_le.mp hneg
        have hdn : d < 0 := by linarith [h.1]
        exact c2 ⟨hdn, hlt⟩
      · by_contra hneg
        have hgt : s.angle + d > 2 * PI := not_le.mp hneg
        have hdp : d > 0 := by linarith [h.2]
        exact c1 ⟨hdp, hgt⟩

/-- The rotation step of `applyInput` is below `2 * PI` in size. -/
theorem rotation_step_small {α : Type} [LinearOrderedField α] :
    |(ROTATION_ANGLE_PER_TICK : α)| < 2 * PI ∧ |(-ROTATION_ANGLE_PER_TICK : α)| < 2 * PI := by
  have h : |(ROTATION_ANGLE_PER_TICK : α)| < 2 * PI := by
    unfold ROTATION_ANGLE_PER_TICK PI
    rw [abs_of_pos (by norm_num)]
    norm_num
  exact ⟨h, by rw [abs_neg]; exact h⟩

/-- A conditional `rotatePlayer` step of size below `2 * PI` keeps the heading
in `[0, 2 * PI]`. -/
theorem rotate_if_angle_range {α : Type} [LinearOrderedField α] (cos sin : α → α)
    (b : Bool) (d : α) (t : State α) (h : 0 ≤ t.angle ∧ t.angle ≤ 2 * PI) (hd : |d| < 2 * PI) :
    0 ≤ (if b = true then rotatePlayer cos sin d t else t).angle
      ∧ (if b = true then rotatePlayer cos sin d t else t).angle ≤ 2 * PI := by
  cases b
  · exact h
  · exact rotatePlayer_angle_range cos sin d t h hd

/-- One `applyInput` frame keeps the heading in `[0, 2 * PI]`. -/
theorem applyInput_angle_range {α : Type} [LinearOrderedField α] (cos sin : α → α)
    (tank : Bool) (keystate : Keys) (s : State α) (h : 0 ≤ s.angle ∧ s.angle ≤ 2 * PI) :
    0 ≤ (applyInput cos sin tank keystate s).angle
      ∧ (applyInput cos sin tank keystate s).angle ≤ 2 * PI := by
  cases tank
  · exact h
  · have e : (applyInput cos sin true keystate s).angle
        = (if keystate.right = true then rotatePlayer cos sin ROTATION_ANGLE_PER_TICK
            (if keystate.left = true then rotatePlayer cos sin (-ROTATION_ANGLE_PER_TICK) s else s)
          else (if keystate.left = true then rotatePlayer cos sin (-ROTATION_ANGLE_PER_TICK) s
            else s)).angle := rfl
    rw [e]
    exact rotate_if_angle_range cos sin keystate.right _ _
      (rotate_if_angle_range cos sin keystate.left _ s h rotation_step_small.2)
      rotation_step_small.1

/-- Claim C20: in exact arithmetic, for a heading in `[0, 2 * PI]` and a step
`d` with `|d| < 2 * PI`, the heading after `rotatePlayer d` is again in
`[0, 2 * PI]`; and after `init_game` and any number of `applyInput` frames,
with any keys and either control scheme, the heading is in `[0, 2 * PI]`. -/
theorem heading_range {α : Type} [LinearOrderedField α] (cos sin : α → α) (d : α)
    (s : State α) (h : 0 ≤ s.angle ∧ s.angle ≤ 2 * PI) (hd : |d| < 2 * PI) :
    (0 ≤ (rotatePlayer cos sin d s).angle ∧ (rotatePlayer cos sin d s).angle ≤ 2 * PI)
      ∧ (∀ (tank : Bool) (frames : List Keys) (s0 : State α),
          0 ≤ (runFrames cos sin tank frames s0).angle
            ∧ (runFrames cos sin tank frames s0).angle ≤ 2 * PI) := by
  refine ⟨rotatePlayer_angle_range cos sin d s h hd, ?_⟩
  intro tank frames s0
  unfold runFrames
  refine foldl_keeps (fun t : State α => 0 ≤ t.angle ∧ t.angle ≤ 2 * PI) _ frames _ ?_ ?_
  · intro k _ t ht
    exact applyInput_angle_range cos sin tank k t ht
  · have e : (init_game cos sin s0).angle = PI := rfl
    show 0 ≤ (init_game cos sin s0).angle ∧ (init_game cos sin s0).angle ≤ 2 * PI
    rw [e]
    unfold PI
    constructor <;> norm_num

/-- Claim C20 at heading `6`, step `-1/2`, for `cos = -1` and `sin = 0`. -/
theorem heading_range_witness :
    (((0 : ℚ) ≤ 6 ∧ (6 : ℚ) ≤ 2 * PI) ∧ |(-1 / 2 : ℚ)| < 2 * PI)
      ∧ (0 ≤ (rotatePlayer (fun _ : ℚ => -1) (fun _ : ℚ => 0) (-1 / 2)
            (⟨fun _ => 0, 6, ⟨128, 128⟩, ⟨-2, 0⟩⟩ : State ℚ)).angle
        ∧ (rotatePlayer (fun _ : ℚ => -1) (fun _ : ℚ => 0) (-1 / 2)
            (⟨fun _ => 0, 6, ⟨128, 128⟩, ⟨-2, 0⟩⟩ : State ℚ)).angle ≤ 2 * PI) :=
  ⟨⟨⟨by norm_num, by norm_num [PI]⟩, by rw [abs_lt]; constructor <;> norm_num [PI]⟩,
    (heading_range (fun _ : ℚ => -1) (fun _ : ℚ => 0) (-1 / 2)
      (⟨fun _ => 0, 6, ⟨128, 128⟩, ⟨-2, 0⟩⟩ : State ℚ)
      ⟨by norm_num, by norm_num [PI]⟩ (by rw [abs_lt]; constructor <;> norm_num [PI])).1⟩

/-! ## `applyInput` in tank mode -/

/-- In exact arithmetic, one `applyInput` frame in tank mode is the frame of
the specification (`tankFrameSpec`: rotation for Left, then for Right, then one
`setPlayerPos` of start position plus/minus the rotated position delta); and
for a position satisfying the position invariant, the position is unchanged
when no key is held and when Up and Down are both held. -/
theorem applyInput_tank_exact {α : Type} [LinearOrderedField α] (cos sin : α → α)
    (keystate : Keys) (s : State α) :
    applyInput cos sin true keystate s = tankFrameSpec cos sin keystate s
      ∧ ((10 ≤ s.position.x ∧ s.position.x ≤ 246) ∧ (10 ≤ s.position.y ∧ s.position.y ≤ 246) →
          applyInput cos sin true ⟨false, false, false, false⟩ s = s
            ∧ (∀ left right : Bool,
                (applyInput cos sin true ⟨true, true, left, right⟩ s).position = s.position)) := by
  constructor
  · rcases keystate with ⟨up, down, left, right⟩
    cases up <;> cases down <;> simp [applyInput, tankFrameSpec]
  · intro hinv
    have hpos : (⟨clamp s.position.x 10 246, clamp s.position.y 10 246⟩ : vec2f α)
        = s.position := by
      rw [clamp_of_mem _ 10 246 hinv.1.1 hinv.1.2, clamp_of_mem _ 10 246 hinv.2.1 hinv.2.2]
    constructor
    · have e : applyInput cos sin true ⟨false, false, false, false⟩ s
          = setPlayerPos s.position.x s.position.y s := by
        simp [applyInput]
      rw [e]
      have e2 := setPlayerPos_position s.position.x s.position.y s
      rw [hpos] at e2
      unfold setPlayerPos at e2 ⊢
      simp only at e2
      rw [e2]
    · intro left right
      have e : ∀ t : State α, (setPlayerPos (s.position.x + t.positionDelta.x - t.positionDelta.x)
          (s.position.y + t.positionDelta.y - t.positionDelta.y) t).position = s.position := by
        intro t
        rw [setPlayerPos_position, add_sub_cancel_right, add_sub_cancel_right]
        exact hpos
      cases left <;> cases right <;> simp only [applyInput, if_true] <;> exact e _

/-! ## The whole buffer -/

/-- After `drawMap2D` every entry of the buffer holds a value fixed by its
index alone: black on the left column and the top row of its cell, the colour
of its cell elsewhere. -/
theorem drawMap2D_entry {α : Type} (s : State α) (j : Int) (hj : 0 ≤ j ∧ j < 65536) :
    (drawMap2D s).pixels j
      = if ((j % 256) % 32).toNat = 0 ∨ ((j / 256) % 32).toNat = 0 then 0
        else cellColorAt ((j % 256) / 32).toNat ((j / 256) / 32).toNat := by
  have h := drawMap2D_cell_pixel s ((j % 256) / 32).toNat ((j / 256) / 32).toNat
    ((j % 256) % 32).toNat ((j / 256) % 32).toNat
    (by omega) (by omega) (by omega) (by omega)
  have e : ((((j / 256) / 32).toNat : Int) * 32 + (((j / 256) % 32).toNat : Nat)) * 256
      + ((((j % 256) / 32).toNat : Int) * 32 + (((j % 256) % 32).toNat : Nat)) = j := by
    omega
  rw [e] at h
  exact h

/-- An index outside the buffer is not written by `drawMap2D`. -/
theorem drawMap2D_outside {α : Type} (s : State α) (j : Int) (hj : j < 0 ∨ 65536 ≤ j) :
    (drawMap2D s).pixels j = s.pixels j := by
  have hlt : ∀ q ∈ List.range 8, q < 8 := fun q hq => List.mem_range.mp hq
  have hm : MAP_SIZE.toNat = 8 := by decide
  unfold drawMap2D
  rw [hm]
  generalize List.range 8 = l at hlt ⊢
  refine foldl_keeps (fun t : State α => t.pixels j = s.pixels j) _ l s ?_ rfl
  intro qc hqc t ht
  refine foldl_keeps (fun t : State α => t.pixels j = s.pixels j) _ l t ?_ ht
  intro qr hqr u hu
  have h8c := hlt qc hqc
  have h8r := hlt qr hqr
  show (drawCell2D (qc : Int) (qr : Int) _ u).pixels j = _
  rw [drawCell2D_outside (qc : Int) (qr : Int) _ u j (by omega) (by omega)]
  · exact hu
  · intro qx qy hqx hqy
    omega

/-- The entries after `drawPlayer2D`: the marker entry if the marker is drawn,
else the player entry if the player is drawn, else the entry as it was. -/
theorem drawPlayer2D_pixels {α : Type} [LinearOrderedField α] [FloorRing α] (m : State α)
    (j : Int) :
    (drawPlayer2D m).pixels j
      = if ((m.position.x + m.positionDelta.x * 5 ≥ 0
              ∧ m.position.x + m.positionDelta.x * 5 ≤ ((SCREEN_WIDTH : Int) : α))
            ∧ (m.position.y + m.positionDelta.y * 5 ≥ 0
              ∧ m.position.y + m.positionDelta.y * 5 ≤ ((SCREEN_HEIGHT : Int) : α)))
          ∧ j = convertPixelCoordToLinear (truncToInt (m.position.x + m.positionDelta.x * 5))
              (truncToInt (m.position.y + m.positionDelta.y * 5))
        then 0x606060
        else if ((m.position.x ≥ 0 ∧ m.position.x ≤ ((SCREEN_WIDTH : Int) : α))
            ∧ (m.position.y ≥ 0 ∧ m.position.y ≤ ((SCREEN_HEIGHT : Int) : α)))
          ∧ j = convertPixelCoordToLinear (truncToInt m.position.x) (truncToInt m.position.y)
        then 0xFFFFFFFF
        else m.pixels j := by
  unfold drawPlayer2D
  by_cases h1 : (m.position.x ≥ 0 ∧ m.position.x ≤ ((SCREEN_WIDTH : Int) : α))
      ∧ (m.position.y ≥ 0 ∧ m.position.y ≤ ((SCREEN_HEIGHT : Int) : α))
  · simp only [if_pos h1]
    have hp : ∀ i v, (setPixel m i v).position = m.position := fun _ _ => rfl
    have hd : ∀ i v, (setPixel m i v).positionDelta = m.positionDelta := fun _ _ => rfl
    rw [hp, hd]
    split_ifs <;> simp_all [setPixel]
  · simp only [if_neg h1]
    split_ifs <;> simp_all [setPixel]

/-- Claim C18: for any player fields (`angle`, `position`, `positionDelta`)
and any two prior buffer contents `p1` and `p2`, every entry `j` of the buffer
(`0 ≤ j < SCREEN_WIDTH * SCREEN_HEIGHT`) is the same after `drawMap2D`, and the
same after `render`; after `drawMap2D` it holds the value fixed by its index
(black or the colour of its cell), so nothing of the prior content is left. -/
theorem render_overwrites_buffer {α : Type} [LinearOrderedField α] [FloorRing α]
    (angle : α) (position positionDelta : vec2f α) (p1 p2 : Int → Nat) (j : Int)
    (hj : 0 ≤ j ∧ j < SCREEN_WIDTH * SCREEN_HEIGHT) :
    (drawMap2D (⟨p1, angle, position, positionDelta⟩ : State α)).pixels j
        = (drawMap2D (⟨p2, angle, position, positionDelta⟩ : State α)).pixels j
      ∧ (render (⟨p1, angle, position, positionDelta⟩ : State α)).pixels j
        = (render (⟨p2, angle, position, positionDelta⟩ : State α)).pixels j
      ∧ (drawMap2D (⟨p1, angle, position, positionDelta⟩ : State α)).pixels j
        = (if ((j % 256) % 32).toNat = 0 ∨ ((j / 256) % 32).toNat = 0 then 0
          else cellColorAt ((j % 256) / 32).toNat ((j / 256) / 32).toNat) := by
  have hj2 : 0 ≤ j ∧ j < 65536 := by
    unfold SCREEN_WIDTH SCREEN_HEIGHT at hj
    omega
  have e1 := drawMap2D_entry (⟨p1, angle, position, positionDelta⟩ : State α) j hj2
  have e2 := drawMap2D_entry (⟨p2, angle, position, positionDelta⟩ : State α) j hj2
  have f1 := drawMap2D_player (⟨p1, angle, position, positionDelta⟩ : State α)
  have f2 := drawMap2D_player (⟨p2, angle, position, positionDelta⟩ : State α)
  refine ⟨e1.trans e2.symm, ?_, e1⟩
  unfold render
  rw [drawPlayer2D_pixels, drawPlayer2D_pixels, f1.2.1, f1.2.2, f2.2.1, f2.2.2, e1, e2]

/-- Claim C18 at entry `300`, for a buffer of zeros and a buffer of sevens. -/
theorem render_overwrites_buffer_witness :
    ((0 : Int) ≤ 300 ∧ (300 : Int) < SCREEN_WIDTH * SCREEN_HEIGHT)
      ∧ (render (⟨fun _ => 0, PI, ⟨128, 128⟩, ⟨-2, 0⟩⟩ : State ℚ)).pixels 300
        = (render (⟨fun _ => 7, PI, ⟨128, 128⟩, ⟨-2, 0⟩⟩ : State ℚ)).pixels 300 :=
  ⟨by decide,
    (render_overwrites_buffer (PI : ℚ) ⟨128, 128⟩ ⟨-2, 0⟩
      (fun _ => 0) (fun _ => 7) 300 (by decide)).2.1⟩

/-- Truncation of a non-negative integer value is that integer. -/
theorem truncToInt_intCast {α : Type} [LinearOrderedField α] [FloorRing α] (z : Int)
    (hz : 0 ≤ z) : truncToInt ((z : Int) : α) = z := by
  rw [truncToInt_of_nonneg _ (by exact_mod_cast hz), Int.floor_intCast]

/-- Claim C19 fails on the code: for the player at `(128, 246)` with position
delta `(0, 1) * 2` (heading a quarter turn), the marker position is
`(128, 256)`, which passes the guard `arrowPosY <= SCREEN_HEIGHT`; its index is
`256 * 256 + 128 = 65664`, past the last entry `65535`, and `render` writes
`0x606060` there, an entry that `drawMap2D` leaves alone. -/
theorem render_marker_past_buffer {α : Type} [LinearOrderedField α] [FloorRing α]
    (s : State α) :
    ((0 : α) ^ 2 + (1 : α) ^ 2 = 1 ∧ ((10 : α) ≤ 128 ∧ (128 : α) ≤ 246)
        ∧ ((10 : α) ≤ 246 ∧ (246 : α) ≤ 246))
      ∧ ((246 : α) + 1 * ((MOVE_SPEED : Int) : α) * 5 ≥ 0
        ∧ (246 : α) + 1 * ((MOVE_SPEED : Int) : α) * 5 ≤ ((SCREEN_HEIGHT : Int) : α))
      ∧ convertPixelCoordToLinear (truncToInt ((128 : α) + 0 * ((MOVE_SPEED : Int) : α) * 5))
          (truncToInt ((246 : α) + 1 * ((MOVE_SPEED : Int) : α) * 5)) = 65664
      ∧ (render (⟨s.pixels, s.angle, ⟨128, 246⟩,
            ⟨0 * ((MOVE_SPEED : Int) : α), 1 * ((MOVE_SPEED : Int) : α)⟩⟩ : State α)).pixels
          65664 = 0x606060
      ∧ (drawMap2D (⟨s.pixels, s.angle, ⟨128, 246⟩,
            ⟨0 * ((MOVE_SPEED : Int) : α), 1 * ((MOVE_SPEED : Int) : α)⟩⟩ : State α)).pixels
          65664 = s.pixels 65664
      ∧ SCREEN_WIDTH * SCREEN_HEIGHT - 1 < 65664 := by
  have hx : (128 : α) + 0 * ((MOVE_SPEED : Int) : α) * 5 = ((128 : Int) : α) := by
    norm_num [MOVE_SPEED]
  have hy : (246 : α) + 1 * ((MOVE_SPEED : Int) : α) * 5 = ((256 : Int) : α) := by
    norm_num [MOVE_SPEED]
  have hw : ((SCREEN_WIDTH : Int) : α) = 256 := by norm_num [SCREEN_WIDTH]
  have hh : ((SCREEN_HEIGHT : Int) : α) = 256 := by norm_num [SCREEN_HEIGHT]
  have hidx : convertPixelCoordToLinear
      (truncToInt ((128 : α) + 0 * ((MOVE_SPEED : Int) : α) * 5))
      (truncToInt ((246 : α) + 1 * ((MOVE_SPEED : Int) : α) * 5)) = 65664 := by
    rw [hx, hy, truncToInt_intCast 128 (by decide), truncToInt_intCast 256 (by decide)]
    decide
  refine ⟨⟨by norm_num, ⟨by norm_num, by norm_num⟩, ⟨by norm_num, by norm_num⟩⟩,
    ⟨by rw [hy]; norm_num, by rw [hy, hh]; norm_num⟩, hidx, ?_,
    drawMap2D_outside _ 65664 (Or.inr (by decide)), by decide⟩
  unfold render
  have f := drawMap2D_player (⟨s.pixels, s.angle, ⟨128, 246⟩,
    ⟨0 * ((MOVE_SPEED : Int) : α), 1 * ((MOVE_SPEED : Int) : α)⟩⟩ : State α)
  rw [drawPlayer2D_pixels, f.2.1, f.2.2]
  simp only
  rw [hidx, if_pos]
  refine ⟨⟨⟨?_, ?_⟩, ⟨?_, ?_⟩⟩, rfl⟩
  · rw [hx]; norm_num
  · rw [hx, hw]; norm_num
  · rw [hy]; norm_num
  · rw [hy, hh]; norm_num

/-! ## Rounding -/

/-- A number less than one half away from an integer rounds to that integer. -/
theorem roundHalfEven_eq {α : Type} [LinearOrderedField α] [FloorRing α] (y : α) (n : Int)
    (h : |y - n| < 1 / 2) : roundHalfEven y = n := by
  have h2 := abs_lt.mp h
  unfold roundHalfEven
  by_cases hy : (n : α) ≤ y
  · have hf : ⌊y⌋ = n := by
      rw [Int.floor_eq_iff]
      constructor
      · exact hy
      · linarith [h2.2]
    simp only [hf]
    rw [if_pos h2.2]
  · have hy2 : y < n := not_le.mp hy
    have hf : ⌊y⌋ = n - 1 := by
      rw [Int.floor_eq_iff]
      push_cast
      constructor
      · linarith [h2.1]
      · linarith
    simp only [hf]
    push_cast
    rw [if_neg (by linarith [h2.1]), if_pos (by linarith [h2.1])]
    ring

/-- The value of `roundBinary` at `x`, from the binary exponent `e` of `x` and
the integer `n` nearest to `x / 2 ^ (e - (prec - 1))`. -/
theorem roundBinary_eq {α : Type} [LinearOrderedField α] [FloorRing α] (prec : Nat) (emin : Int)
    (x : α) (e n : Int) (h1 : (2 : α) ^ e ≤ |x|) (h2 : |x| < (2 : α) ^ (e + 1)) (he : emin ≤ e)
    (hn : |x / (2 : α) ^ (e - ((prec : Int) - 1)) - n| < 1 / 2) :
    roundBinary prec emin x = (n : α) * (2 : α) ^ (e - ((prec : Int) - 1)) := by
  have hpos : 0 < |x| := lt_of_lt_of_le (zpow_pos (by norm_num) e) h1
  have hx : x ≠ 0 := abs_pos.mp hpos
  have hlog : Int.log 2 |x| = e := by
    apply le_antisymm
    · have hlt := (Int.lt_zpow_iff_log_lt (R := α) (b := 2) (by norm_num) hpos (x := e + 1)).mp
        (by exact_mod_cast h2)
      omega
    · exact (Int.zpow_le_iff_le_log (R := α) (b := 2) (by norm_num) hpos).mp
        (by exact_mod_cast h1)
  unfold roundBinary
  rw [if_neg hx]
  simp only [hlog, max_eq_left he]
  rw [roundHalfEven_eq _ n hn]

/-- The `double` nearest to the literal `3.1415926535`. -/
theorem binary64_PI {α : Type} [LinearOrderedField α] [FloorRing α] :
    binary64 (PI : α) = 1768559437956561 / 562949953421312 := by
  unfold binary64 PI
  rw [roundBinary_eq 53 (-1022) _ 1 7074237751826244
    (by rw [abs_of_pos (by norm_num)]; norm_num) (by rw [abs_of_pos (by norm_num)]; norm_num)
    (by norm_num) (by rw [abs_lt]; constructor <;> norm_num)]
  norm_num

/-- The `double` product `2 * PI` is exact. -/
theorem binary64_two_PI {α : Type} [LinearOrderedField α] [FloorRing α] :
    binary64 (2 * binary64 (PI : α)) = 1768559437956561 / 281474976710656 := by
  rw [binary64_PI]
  unfold binary64
  rw [roundBinary_eq 53 (-1022) _ 2 7074237751826244
    (by rw [abs_of_pos (by norm_num)]; norm_num) (by rw [abs_of_pos (by norm_num)]; norm_num)
    (by norm_num) (by rw [abs_lt]; constructor <;> norm_num)]
  norm_num

/-- The `float` stored by `state.angle = PI` is `3.1415927410125732`. -/
theorem binary32_PI {α : Type} [LinearOrderedField α] [FloorRing α] :
    binary32 (binary64 (PI : α)) = 13176795 / 4194304 := by
  rw [binary64_PI]
  unfold binary32
  rw [roundBinary_eq 24 (-126) _ 1 13176795
    (by rw [abs_of_pos (by norm_num)]; norm_num) (by rw [abs_of_pos (by norm_num)]; norm_num)
    (by norm_num) (by rw [abs_lt]; constructor <;> norm_num)]
  norm_num

/-- The `float` passed for `ROTATION_ANGLE_PER_TICK` is `0.10000000149011612`. -/
theorem binary32_step {α : Type} [LinearOrderedField α] [FloorRing α] :
    binary32 (binary64 (ROTATION_ANGLE_PER_TICK : α)) = 13421773 / 134217728 := by
  have h64 : binary64 (ROTATION_ANGLE_PER_TICK : α) = 3602879701896397 / 36028797018963968 := by
    unfold binary64 ROTATION_ANGLE_PER_TICK
    rw [roundBinary_eq 53 (-1022) _ (-4) 7205759403792794
      (by rw [abs_of_pos (by norm_num)]; norm_num) (by rw [abs_of_pos (by norm_num)]; norm_num)
      (by norm_num) (by rw [abs_lt]; constructor <;> norm_num)]
    norm_num
  rw [h64]
  unfold binary32
  rw [roundBinary_eq 24 (-126) _ (-4) 13421773
    (by rw [abs_of_pos (by norm_num)]; norm_num) (by rw [abs_of_pos (by norm_num)]; norm_num)
    (by norm_num) (by rw [abs_lt]; constructor <;> norm_num)]
  norm_num

/-- The value of `binary32` at a positive `x`, from its binary exponent `e` and
the integer `n` nearest to `x / 2 ^ (e - 23)`. -/
theorem binary32_eq {α : Type} [LinearOrderedField α] [FloorRing α] (x v : α) (e n : Int)
    (h1 : (2 : α) ^ e ≤ x) (h2 : x < (2 : α) ^ (e + 1)) (he : -126 ≤ e)
    (hn : |x / (2 : α) ^ (e - 23) - n| < 1 / 2) (hv : (n : α) * (2 : α) ^ (e - 23) = v) :
    binary32 x = v := by
  have hx : 0 < x := lt_of_lt_of_le (zpow_pos (by norm_num) e) h1
  unfold binary32
  rw [roundBinary_eq 24 (-126) x e n (by rw [abs_of_pos hx]; exact h1)
    (by rw [abs_of_pos hx]; exact h2) he (by simpa using hn)]
  simpa using hv

/-- The value of `binary64` at a positive `x`, from its binary exponent `e` and
the integer `n` nearest to `x / 2 ^ (e - 52)`. -/
theorem binary64_eq {α : Type} [LinearOrderedField α] [FloorRing α] (x v : α) (e n : Int)
    (h1 : (2 : α) ^ e ≤ x) (h2 : x < (2 : α) ^ (e + 1)) (he : -1022 ≤ e)
    (hn : |x / (2 : α) ^ (e - 52) - n| < 1 / 2) (hv : (n : α) * (2 : α) ^ (e - 52) = v) :
    binary64 x = v := by
  have hx : 0 < x := lt_of_lt_of_le (zpow_pos (by norm_num) e) h1
  unfold binary64
  rw [roundBinary_eq 53 (-1022) x e n (by rw [abs_of_pos hx]; exact h1)
    (by rw [abs_of_pos hx]; exact h2) he (by simpa using hn)]
  simpa using hv

/-! ## Rotation with rounding -/

/-- The heading stored by `Rounded.rotatePlayer`, with the two conditionals of
the source merged into one case distinction: the wrap is decided on the
rounded `float` sum. -/
theorem rounded_rotatePlayer_angle {α : Type} [LinearOrderedField α]
    (toFloat toDouble cos sin : α → α) (d : α) (s : State α) :
    (Rounded.rotatePlayer toFloat toDouble cos sin d s).angle
      = if d > 0 ∧ toFloat (s.angle + d) > toDouble (2 * toDouble PI)
          then toFloat (toDouble (toFloat (s.angle + d) - toDouble (2 * toDouble PI)))
        else if d < 0 ∧ toFloat (s.angle + d) < 0
          then toFloat (toDouble (toFloat (s.angle + d) + toDouble (2 * toDouble PI)))
        else toFloat (s.angle + d) := by
  unfold Rounded.rotatePlayer
  by_cases h1 : d > 0 ∧ toFloat (s.angle + d) > toDouble (2 * toDouble PI)
  · have h2 : ¬ d < 0 := not_lt.mpr (le_of_lt h1.1)
    simp [h1, h2]
  · simp [h1]

/-- Without rounding, `Rounded.rotatePlayer` is `rotatePlayer`. -/
theorem rounded_rotatePlayer_id {α : Type} [LinearOrderedField α] (cos sin : α → α) (d : α)
    (s : State α) : Rounded.rotatePlayer id id cos sin d s = rotatePlayer cos sin d s := rfl

/-- One step of the rotation step as `float` that stays at or below `2 * PI`
stores the rounded sum. -/
theorem rounded_rotate_step {α : Type} [LinearOrderedField α] [FloorRing α] (cos sin : α → α)
    (t : State α) (a b : α) (ha : t.angle = a) (hb : binary32 (a + 13421773 / 134217728) = b)
    (hle : b ≤ 1768559437956561 / 281474976710656) :
    (Rounded.rotatePlayer binary32 binary64 cos sin (13421773 / 134217728) t).angle = b := by
  rw [rounded_rotatePlayer_angle, ha, hb, binary64_two_PI]
  rw [if_neg (by intro h; exact absurd h.2 (not_lt.mpr hle)),
    if_neg (by intro h; exact absurd h.1 (by norm_num))]

/-- The headings after one to ten calls of `rotatePlayer` with the `float`
rotation step, from the `float` heading `3.1415927410125732` that `init_game`
stores: each is the rounded sum, no call wraps, the tenth is
`4.141592025756836`. -/
theorem rounded_steps_values {α : Type} [LinearOrderedField α] [FloorRing α] (cos sin : α → α)
    (s : State α) (hs : s.angle = 13176795 / 4194304) :
    ((Rounded.rotatePlayer binary32 binary64 cos sin
          (binary32 (binary64 ROTATION_ANGLE_PER_TICK)))^[1] s).angle
        = 13596225 / 4194304
      ∧ ((Rounded.rotatePlayer binary32 binary64 cos sin
          (binary32 (binary64 ROTATION_ANGLE_PER_TICK)))^[2] s).angle
        = 14015655 / 4194304
      ∧ ((Rounded.rotatePlayer binary32 binary64 cos sin
          (binary32 (binary64 ROTATION_ANGLE_PER_TICK)))^[3] s).angle
        = 14435085 / 4194304
      ∧ ((Rounded.rotatePlayer binary32 binary64 cos sin
          (binary32 (binary64 ROTATION_ANGLE_PER_TICK)))^[4] s).angle
        = 14854515 / 4194304
      ∧ ((Rounded.rotatePlayer binary32 binary64 cos sin
          (binary32 (binary64 ROTATION_ANGLE_PER_TICK)))^[5] s).angle
        = 15273945 / 4194304
      ∧ ((Rounded.rotatePlayer binary32 binary64 cos sin
          (binary32 (binary64 ROTATION_ANGLE_PER_TICK)))^[6] s).angle
        = 15693375 / 4194304
      ∧ ((Rounded.rotatePlayer binary32 binary64 cos sin
          (binary32 (binary64 ROTATION_ANGLE_PER_TICK)))^[7] s).angle
        = 16112805 / 4194304
      ∧ ((Rounded.rotatePlayer binary32 binary64 cos sin
          (binary32 (binary64 ROTATION_ANGLE_PER_TICK)))^[8] s).angle
        = 16532235 / 4194304
      ∧ ((Rounded.rotatePlayer binary32 binary64 cos sin
          (binary32 (binary64 ROTATION_ANGLE_PER_TICK)))^[9] s).angle
        = 8475833 / 2097152
      ∧ ((Rounded.rotatePlayer binary32 binary64 cos sin
          (binary32 (binary64 ROTATION_ANGLE_PER_TICK)))^[10] s).angle
        = 2171387 / 524288 := by
  rw [binary32_step]
  set R := Rounded.rotatePlayer binary32 binary64 cos sin (13421773 / 134217728 : α) with hR
  have v1 : binary32 ((13176795 / 4194304 : α) + 13421773 / 134217728) = 13596225 / 4194304 :=
    binary32_eq _ _ 1 13596225 (by norm_num) (by norm_num) (by norm_num)
      (by rw [abs_lt]; constructor <;> norm_num) (by norm_num)
  have v2 : binary32 ((13596225 / 4194304 : α) + 13421773 / 134217728) = 14015655 / 4194304 :=
    binary32_eq _ _ 1 14015655 (by norm_num) (by norm_num) (by norm_num)
      (by rw [abs_lt]; constructor <;> norm_num) (by norm_num)
  have v3 : binary32 ((14015655 / 4194304 : α) + 13421773 / 134217728) = 14435085 / 4194304 :=
    binary32_eq _ _ 1 14435085 (by norm_num) (by norm_num) (by norm_num)
      (by rw [abs_lt]; constructor <;> norm_num) (by norm_num)
  have v4 : binary32 ((14435085 / 4194304 : α) + 13421773 / 134217728) = 14854515 / 4194304 :=
    binary32_eq _ _ 1 14854515 (by norm_num) (by norm_num) (by norm_num)
      (by rw [abs_lt]; constructor <;> norm_num) (by norm_num)
  have v5 : binary32 ((14854515 / 4194304 : α) + 13421773 / 134217728) = 15273945 / 4194304 :=
    binary32_eq _ _ 1 15273945 (by norm_num) (by norm_num) (by norm_num)
      (by rw [abs_lt]; constructor <;> norm_num) (by norm_num)
  have v6 : binary32 ((15273945 / 4194304 : α) + 13421773 / 134217728) = 15693375 / 4194304 :=
    binary32_eq _ _ 1 15693375 (by norm_num) (by norm_num) (by norm_num)
      (by rw [abs_lt]; constructor <;> norm_num) (by norm_num)
  have v7 : binary32 ((15693375 / 4194304 : α) + 13421773 / 134217728) = 16112805 / 4194304 :=
    binary32_eq _ _ 1 16112805 (by norm_num) (by norm_num) (by norm_num)
      (by rw [abs_lt]; constructor <;> norm_num) (by norm_num)
  have v8 : binary32 ((16112805 / 4194304 : α) + 13421773 / 134217728) = 16532235 / 4194304 :=
    binary32_eq _ _ 1 16532235 (by norm_num) (by norm_num) (by norm_num)
      (by rw [abs_lt]; constructor <;> norm_num) (by norm_num)
  have v9 : binary32 ((16532235 / 4194304 : α) + 13421773 / 134217728) = 8475833 / 2097152 :=
    binary32_eq _ _ 2 8475833 (by norm_num) (by norm_num) (by norm_num)
      (by rw [abs_lt]; constructor <;> norm_num) (by norm_num)
  have v10 : binary32 ((8475833 / 2097152 : α) + 13421773 / 134217728) = 2171387 / 524288 :=
    binary32_eq _ _ 2 8685548 (by norm_num) (by norm_num) (by norm_num)
      (by rw [abs_lt]; constructor <;> norm_num) (by norm_num)
  have e1 : (R s).angle = 13596225 / 4194304 :=
    rounded_rotate_step cos sin s _ _ hs v1 (by norm_num)
  have e2 : (R (R s)).angle = 14015655 / 4194304 :=
    rounded_rotate_step cos sin (R s) _ _ e1 v2 (by norm_num)
  have e3 : (R (R (R s))).angle = 14435085 / 4194304 :=
    rounded_rotate_step cos sin (R (R s)) _ _ e2 v3 (by norm_num)
  have e4 : (R (R (R (R s)))).angle = 14854515 / 4194304 :=
    rounded_rotate_step cos sin (R (R (R s))) _ _ e3 v4 (by norm_num)
  have e5 : (R (R (R (R (R s))))).angle = 15273945 / 4194304 :=
    rounded_rotate_step cos sin (R (R (R (R s)))) _ _ e4 v5 (by norm_num)
  have e6 : (R (R (R (R (R (R s)))))).angle = 15693375 / 4194304 :=
    rounded_rotate_step cos sin (R (R (R (R (R s))))) _ _ e5 v6 (by norm_num)
  have e7 : (R (R (R (R (R (R (R s))))))).angle = 16112805 / 4194304 :=
    rounded_rotate_step cos sin (R (R (R (R (R (R s)))))) _ _ e6 v7 (by norm_num)
  have e8 : (R (R (R (R (R (R (R (R s)))))))).angle = 16532235 / 4194304 :=
    rounded_rotate_step cos sin (R (R (R (R (R (R (R s))))))) _ _ e7 v8 (by norm_num)
  have e9 : (R (R (R (R (R (R (R (R (R s))))))))).angle = 8475833 / 2097152 :=
    rounded_rotate_step cos sin (R (R (R (R (R (R (R (R s)))))))) _ _ e8 v9 (by norm_num)
  have e10 : (R (R (R (R (R (R (R (R (R (R s)))))))))).angle = 2171387 / 524288 :=
    rounded_rotate_step cos sin (R (R (R (R (R (R (R (R (R s))))))))) _ _ e9 v10 (by norm_num)
  exact ⟨e1, e2, e3, e4, e5, e6, e7, e8, e9, e10⟩

/-- Ten calls of `rotatePlayer` with the `float` rotation step, from the `float`
heading that `init_game` stores, end at the heading `4.141592025756836`. -/
theorem rounded_ten_steps {α : Type} [LinearOrderedField α] [FloorRing α] (cos sin : α → α)
    (s : State α) (hs : s.angle = 13176795 / 4194304) :
    ((Rounded.rotatePlayer binary32 binary64 cos sin
        (binary32 (binary64 ROTATION_ANGLE_PER_TICK)))^[10] s).angle = 2171387 / 524288 :=
  (rounded_steps_values cos sin s hs).2.2.2.2.2.2.2.2.2

/-- After `k ≤ 10` such calls the heading is less than `1 / 10 ^ 6` away from
`PI + k / 10`. -/
theorem rounded_steps_track {α : Type} [LinearOrderedField α] [FloorRing α] (cos sin : α → α)
    (s : State α) (hs : s.angle = 13176795 / 4194304) (k : Fin 11) :
    |((Rounded.rotatePlayer binary32 binary64 cos sin
        (binary32 (binary64 ROTATION_ANGLE_PER_TICK)))^[k.val] s).angle
      - (PI + (k.val : α) / 10)| < 1 / 10 ^ 6 := by
  obtain ⟨e1, e2, e3, e4, e5, e6, e7, e8, e9, e10⟩ := rounded_steps_values cos sin s hs
  have e0 : ((Rounded.rotatePlayer binary32 binary64 cos sin
      (binary32 (binary64 ROTATION_ANGLE_PER_TICK)))^[0] s).angle = 13176795 / 4194304 := hs
  fin_cases k
  · simp only [e0]
    unfold PI
    rw [abs_lt]
    constructor <;> norm_num
  · simp only [e1]
    unfold PI
    rw [abs_lt]
    constructor <;> norm_num
  · simp only [e2]
    unfold PI
    rw [abs_lt]
    constructor <;> norm_num
  · simp only [e3]
    unfold PI
    rw [abs_lt]
    constructor <;> norm_num
  · simp only [e4]
    unfold PI
    rw [abs_lt]
    constructor <;> norm_num
  · simp only [e5]
    unfold PI
    rw [abs_lt]
    constructor <;> norm_num
  · simp only [e6]
    unfold PI
    rw [abs_lt]
    constructor <;> norm_num
  · simp only [e7]
    unfold PI
    rw [abs_lt]
    constructor <;> norm_num
  · simp only [e8]
    unfold PI
    rw [abs_lt]
    constructor <;> norm_num
  · simp only [e9]
    unfold PI
    rw [abs_lt]
    constructor <;> norm_num
  · simp only [e10]
    unfold PI
    rw [abs_lt]
    constructor <;> norm_num

/-- Claim C3 as stated fails: from heading `6` with the `float`
`angleDelta = 0.28318527340888977`, the sum `h + d` is not above `2 * PI`, so
the claim gives the heading `h + d`; the program rounds the sum to the `float`
`6.2831854820251465`, which is above `2 * PI`, wraps, and stores
`1.7502514992884244e-07`.  And ten calls with the rotation step from the
heading that `init_game` stores end at `4.141592025756836`, not at `PI + 1`. -/
theorem rotatePlayer_rounds_before_wrap_test :
    ((0 : ℚ) < 9502121 / 33554432 ∧ ¬ ((6 : ℚ) + 9502121 / 33554432 > 2 * PI))
      ∧ (Rounded.rotatePlayer binary32 binary64 (fun _ : ℚ => -1) (fun _ : ℚ => 0)
          (9502121 / 33554432) (⟨fun _ => 0, 6, ⟨128, 128⟩, ⟨-2, 0⟩⟩ : State ℚ)).angle
        = 3079075 / 17592186044416
      ∧ (3079075 / 17592186044416 : ℚ) ≠ 6 + 9502121 / 33554432
      ∧ ((Rounded.rotatePlayer binary32 binary64 (fun _ : ℚ => -1) (fun _ : ℚ => 0)
          (binary32 (binary64 ROTATION_ANGLE_PER_TICK)))^[10]
          (Rounded.init_game binary32 binary64 (fun _ : ℚ => -1) (fun _ : ℚ => 0)
            (⟨fun _ => 0, 0, ⟨0, 0⟩, ⟨0, 0⟩⟩ : State ℚ))).angle = 2171387 / 524288
      ∧ (2171387 / 524288 : ℚ) ≠ PI + 1 := by
  have w1 : binary32 ((6 : ℚ) + 9502121 / 33554432) = 13176795 / 2097152 :=
    binary32_eq _ _ 2 13176795 (by norm_num) (by norm_num) (by norm_num)
      (by rw [abs_lt]; constructor <;> norm_num) (by norm_num)
  have w2 : binary64 ((13176795 / 2097152 : ℚ) - 1768559437956561 / 281474976710656)
      = 49265199 / 281474976710656 :=
    binary64_eq _ _ (-23) 6612263079247872 (by norm_num) (by norm_num) (by norm_num)
      (by rw [abs_lt]; constructor <;> norm_num) (by norm_num)
  have w3 : binary32 (49265199 / 281474976710656 : ℚ) = 3079075 / 17592186044416 :=
    binary32_eq _ _ (-23) 12316300 (by norm_num) (by norm_num) (by norm_num)
      (by rw [abs_lt]; constructor <;> norm_num) (by norm_num)
  refine ⟨⟨by norm_num, by norm_num [PI]⟩, ?_, by norm_num, ?_, by norm_num [PI]⟩
  · rw [rounded_rotatePlayer_angle]
    simp only [w1, binary64_two_PI]
    rw [if_pos (by norm_num), w2, w3]
  · exact rounded_ten_steps _ _ _ binary32_PI

/-- Claim C3, amended: `rotatePlayer d` rounds the sum `h + d` to `float` and
decides the single correction on the rounded sum `r`: the heading becomes
`r - 2π` (computed in `double`, narrowed to `float`) if `d > 0` and `r > 2π`,
`r + 2π` likewise if `d < 0` and `r < 0`, and `r` otherwise; the position delta
becomes `(cos, sin)` of the new heading times `MOVE_SPEED = 2`, narrowed to
`float`; position and pixels are unchanged; with roundings that do nothing
this is `rotatePlayer`.  With `binary32` and `binary64`, after `k ≤ 10` calls
with the rotation step from the heading stored by `init_game` the heading is
less than `1 / 10 ^ 6` away from `PI + k / 10` (no wrap), and after ten calls
it is `4.141592025756836`. -/
theorem rotatePlayer_rounded_spec {α : Type} [LinearOrderedField α] [FloorRing α]
    (toFloat toDouble cos sin : α → α) (d : α) (s : State α) :
    (Rounded.rotatePlayer toFloat toDouble cos sin d s).angle
        = (if d > 0 ∧ toFloat (s.angle + d) > toDouble (2 * toDouble PI)
            then toFloat (toDouble (toFloat (s.angle + d) - toDouble (2 * toDouble PI)))
          else if d < 0 ∧ toFloat (s.angle + d) < 0
            then toFloat (toDouble (toFloat (s.angle + d) + toDouble (2 * toDouble PI)))
          else toFloat (s.angle + d))
      ∧ (Rounded.rotatePlayer toFloat toDouble cos sin d s).positionDelta.x
        = toFloat (toDouble (cos (Rounded.rotatePlayer toFloat toDouble cos sin d s).angle
            * ((MOVE_SPEED : Int) : α)))
      ∧ (Rounded.rotatePlayer toFloat toDouble cos sin d s).positionDelta.y
        = toFloat (toDouble (sin (Rounded.rotatePlayer toFloat toDouble cos sin d s).angle
            * ((MOVE_SPEED : Int) : α)))
      ∧ ((MOVE_SPEED : Int) : α) = 2
      ∧ (Rounded.rotatePlayer toFloat toDouble cos sin d s).position = s.position
      ∧ (Rounded.rotatePlayer toFloat toDouble cos sin d s).pixels = s.pixels
      ∧ Rounded.rotatePlayer id id cos sin d s = rotatePlayer cos sin d s
      ∧ (∀ k : Fin 11,
          |((Rounded.rotatePlayer binary32 binary64 cos sin
                (binary32 (binary64 ROTATION_ANGLE_PER_TICK)))^[k.val]
              (Rounded.init_game binary32 binary64 cos sin s)).angle
            - (PI + (k.val : α) / 10)| < 1 / 10 ^ 6)
      ∧ ((Rounded.rotatePlayer binary32 binary64 cos sin
            (binary32 (binary64 ROTATION_ANGLE_PER_TICK)))^[10]
            (Rounded.init_game binary32 binary64 cos sin s)).angle = 2171387 / 524288 := by
  refine ⟨rounded_rotatePlayer_angle toFloat toDouble cos sin d s, rfl, rfl,
    by simp [MOVE_SPEED], rfl, rfl, rfl, ?_, ?_⟩
  · intro k
    exact rounded_steps_track cos sin _ binary32_PI k
  · exact rounded_ten_steps cos sin _ binary32_PI

/-! ## `init_game` with rounding -/

/-- Claim C12 as stated fails: the heading that `init_game` stores is the
`float` nearest to the constant `PI`, `3.1415927410125732`, and not `PI`. -/
theorem init_game_heading_is_not_PI :
    (Rounded.init_game binary32 binary64 (fun _ : ℚ => -1) (fun _ : ℚ => 0)
        (⟨fun _ => 0, 0, ⟨0, 0⟩, ⟨0, 0⟩⟩ : State ℚ)).angle = 13176795 / 4194304
      ∧ (13176795 / 4194304 : ℚ) ≠ PI := by
  constructor
  · exact binary32_PI
  · norm_num [PI]

/-- Claim C12, amended: from any prior state `init_game` produces position
`(128, 128)`, the heading `PI` narrowed to `float` and the position delta
`(cos, sin)` of that heading narrowed to `float`, not multiplied by
`MOVE_SPEED`; the pixels are untouched; with roundings that do nothing this is
`init_game`.  With `binary32` and `binary64` the heading is
`3.1415927410125732`, less than `1 / 10 ^ 7` away from `PI`. -/
theorem init_game_rounded_spec {α : Type} [LinearOrderedField α] [FloorRing α]
    (toFloat toDouble cos sin : α → α) (s : State α) :
    (Rounded.init_game toFloat toDouble cos sin s).position.x = 128
      ∧ (Rounded.init_game toFloat toDouble cos sin s).position.y = 128
      ∧ (Rounded.init_game toFloat toDouble cos sin s).angle = toFloat (toDouble PI)
      ∧ (Rounded.init_game toFloat toDouble cos sin s).positionDelta.x
        = toFloat (cos (Rounded.init_game toFloat toDouble cos sin s).angle)
      ∧ (Rounded.init_game toFloat toDouble cos sin s).positionDelta.y
        = toFloat (sin (Rounded.init_game toFloat toDouble cos sin s).angle)
      ∧ (Rounded.init_game toFloat toDouble cos sin s).pixels = s.pixels
      ∧ Rounded.init_game id id cos sin s = init_game cos sin s
      ∧ (Rounded.init_game binary32 binary64 cos sin s).angle = 13176795 / 4194304
      ∧ |(13176795 / 4194304 : α) - PI| < 1 / 10 ^ 7 := by
  have h := init_game_exact cos sin s
  have hp : (Rounded.init_game toFloat toDouble cos sin s).position
      = (init_game cos sin s).position := rfl
  refine ⟨?_, ?_, rfl, rfl, rfl, rfl, rfl, binary32_PI, ?_⟩
  · rw [hp]
    exact h.1
  · rw [hp]
    exact h.2.1
  · unfold PI
    rw [abs_lt]
    constructor <;> norm_num

/-! ## `applyInput` in tank mode with rounding -/

/-- The position after a frame with exactly Up and Down held: one rounded
addition and one rounded subtraction of the position delta, then the clamp. -/
theorem rounded_applyInput_up_down {α : Type} [LinearOrderedField α]
    (toFloat toDouble cos sin : α → α) (s : State α) :
    (Rounded.applyInput toFloat toDouble cos sin true ⟨true, true, false, false⟩ s).position
      = ⟨clamp (toFloat (toFloat (s.position.x + s.positionDelta.x) - s.positionDelta.x)) 10 246,
          clamp (toFloat (toFloat (s.position.y + s.positionDelta.y) - s.positionDelta.y))
            10 246⟩ := by
  have e : Rounded.applyInput toFloat toDouble cos sin true ⟨true, true, false, false⟩ s
      = setPlayerPos (toFloat (toFloat (s.position.x + s.positionDelta.x) - s.positionDelta.x))
          (toFloat (toFloat (s.position.y + s.positionDelta.y) - s.positionDelta.y)) s := by
    simp [Rounded.applyInput]
  rw [e, setPlayerPos_position]

/-- Claim C17 as stated fails with Up and Down both held: for the player at
`(128, 128)` with the `float` position delta
`(-1.9900083541870117, 0.19966647028923035)` (the state after `init_game` and
one frame with Left held), the frame computes `128 + 0.19966647...` rounded to
`128.1996612548828` and then subtracts, which rounds to `127.99999237060547`:
the position changes although it satisfies the position invariant. -/
theorem up_and_down_do_not_cancel :
    (((10 : ℚ) ≤ 128 ∧ (128 : ℚ) ≤ 246) ∧ ((10 : ℚ) ≤ 128 ∧ (128 : ℚ) ≤ 246))
      ∧ (Rounded.applyInput binary32 binary64 (fun _ : ℚ => -1) (fun _ : ℚ => 0) true
          ⟨true, true, false, false⟩
          (⟨fun _ => 0, 12757365 / 4194304, ⟨128, 128⟩,
            ⟨-2086675 / 1048576, 6699695 / 33554432⟩⟩ : State ℚ)).position.y
        = 16777215 / 131072
      ∧ (16777215 / 131072 : ℚ) ≠ 128 := by
  have w1 : binary32 ((128 : ℚ) + 6699695 / 33554432) = 8401693 / 65536 :=
    binary32_eq _ _ 7 8401693 (by norm_num) (by norm_num) (by norm_num)
      (by rw [abs_lt]; constructor <;> norm_num) (by norm_num)
  have w2 : binary32 ((8401693 / 65536 : ℚ) - 6699695 / 33554432) = 16777215 / 131072 :=
    binary32_eq _ _ 6 16777215 (by norm_num) (by norm_num) (by norm_num)
      (by rw [abs_lt]; constructor <;> norm_num) (by norm_num)
  refine ⟨⟨⟨by norm_num, by norm_num⟩, ⟨by norm_num, by norm_num⟩⟩, ?_, by norm_num⟩
  rw [rounded_applyInput_up_down]
  simp only [w1, w2]
  exact clamp_of_mem _ 10 246 (by norm_num) (by norm_num)

/-- Claim C17, amended: in tank mode one `applyInput` frame is the frame of the
specification with the roundings of the program (`Rounded.tankFrameSpec`:
`rotate` for Left, then for Right, then the position at the start of the frame
plus the rotated movement vector if Up is held, minus it if Down is held, each
a `float` operation, through one `setPlayerPos`); with roundings that do
nothing it is `applyInput`.  For a position satisfying the position invariant
the state is unchanged when no key is held. -/
theorem applyInput_tank_rounded_spec {α : Type} [LinearOrderedField α]
    (toFloat toDouble cos sin : α → α) (keystate : Keys) (s : State α) :
    Rounded.applyInput toFloat toDouble cos sin true keystate s
        = Rounded.tankFrameSpec toFloat toDouble cos sin keystate s
      ∧ Rounded.applyInput id id cos sin true keystate s = applyInput cos sin true keystate s
      ∧ ((10 ≤ s.position.x ∧ s.position.x ≤ 246) ∧ (10 ≤ s.position.y ∧ s.position.y ≤ 246) →
          Rounded.applyInput toFloat toDouble cos sin true ⟨false, false, false, false⟩ s = s) := by
  refine ⟨?_, rfl, ?_⟩
  · rcases keystate with ⟨up, down, left, right⟩
    cases up <;> cases down <;> simp [Rounded.applyInput, Rounded.tankFrameSpec]
  · intro hinv
    have h := (applyInput_tank_exact cos sin keystate s).2 hinv
    have e : Rounded.applyInput toFloat toDouble cos sin true ⟨false, false, false, false⟩ s
        = applyInput cos sin true ⟨false, false, false, false⟩ s := by
      simp [Rounded.applyInput, applyInput]
    rw [e]
    exact h.1

/-- Claim C17, amended, for the player at `(128, 128)` with heading
`3.1415927410125732` and no key held, with `binary32` and `binary64`. -/
theorem applyInput_tank_rounded_spec_witness :
    (((10 : ℚ) ≤ 128 ∧ (128 : ℚ) ≤ 246) ∧ ((10 : ℚ) ≤ 128 ∧ (128 : ℚ) ≤ 246))
      ∧ Rounded.applyInput binary32 binary64 (fun _ : ℚ => -1) (fun _ : ℚ => 0) true
          ⟨false, false, false, false⟩
          (⟨fun _ => 0, 13176795 / 4194304, ⟨128, 128⟩, ⟨-1, 0⟩⟩ : State ℚ)
        = (⟨fun _ => 0, 13176795 / 4194304, ⟨128, 128⟩, ⟨-1, 0⟩⟩ : State ℚ) :=
  ⟨⟨⟨by norm_num, by norm_num⟩, ⟨by norm_num, by norm_num⟩⟩,
    (applyInput_tank_rounded_spec binary32 binary64 (fun _ : ℚ => -1) (fun _ : ℚ => 0)
      ⟨false, false, false, false⟩
      (⟨fun _ => 0, 13176795 / 4194304, ⟨128, 128⟩, ⟨-1, 0⟩⟩ : State ℚ)).2.2
        ⟨⟨by norm_num, by norm_num⟩, ⟨by norm_num, by norm_num⟩⟩⟩

end Enkidu
